import Mathlib

/-!
Verification development for the bakezip ZIP container engine
(parser, filename inspector, compatibility analyzer, rebuilder).

Machine integers are modelled as `Nat` with explicit `% 2^w` where
truncation matters; byte buffers are `List Nat`; fallible code returns
`Except` or `Option`.  The character-encoding detection and decoding
library (chardetng / encoding_rs) is an external collaborator and is
modelled as an abstract `EncodingLib` record of functions.
-/

set_option maxHeartbeats 1000000

deriving instance DecidableEq for Except

/-- Little-endian read of a 16-bit value at `i` (out of range reads 0,
mirroring the fact that the source never reads out of bounds). -/
def u16le (data : List Nat) (i : Nat) : Nat :=
  data.getD i 0 + 256 * data.getD (i + 1) 0

/-- Little-endian read of a 32-bit value at `i`. -/
def u32le (data : List Nat) (i : Nat) : Nat :=
  data.getD i 0 + 256 * data.getD (i + 1) 0 + 65536 * data.getD (i + 2) 0 +
    16777216 * data.getD (i + 3) 0

/-- Little-endian read of a 64-bit value at `i`. -/
def u64le (data : List Nat) (i : Nat) : Nat :=
  u32le data i + 4294967296 * u32le data (i + 4)

/-- `u16::to_le_bytes`. -/
def le16 (n : Nat) : List Nat :=
  [n % 256, n / 256 % 256]

/-- `u32::to_le_bytes`. -/
def le32 (n : Nat) : List Nat :=
  [n % 256, n / 256 % 256, n / 65536 % 256, n / 16777216 % 256]

/-- `u64::to_le_bytes`. -/
def le64 (n : Nat) : List Nat :=
  le32 (n % 4294967296) ++ le32 (n / 4294967296 % 4294967296)

/-- Whether every byte is ASCII (`u8::is_ascii`). -/
def allAscii (data : List Nat) : Bool :=
  data.all (fun b => b < 128)

/-- UTF-8 validity of a byte sequence, as decided by `str::from_utf8`
(RFC 3629: no overlong forms, no surrogates, max U+10FFFF). -/
def validUtf8 : List Nat → Bool
  | [] => true
  | b :: rest =>
    if b < 0x80 then validUtf8 rest
    else if 0xC2 ≤ b ∧ b ≤ 0xDF then
      match rest with
      | c :: r => 0x80 ≤ c && c ≤ 0xBF && validUtf8 r
      | [] => false
    else if b = 0xE0 then
      match rest with
      | c :: d :: r => 0xA0 ≤ c && c ≤ 0xBF && (0x80 ≤ d && d ≤ 0xBF) && validUtf8 r
      | _ => false
    else if 0xE1 ≤ b ∧ b ≤ 0xEC then
      match rest with
      | c :: d :: r => 0x80 ≤ c && c ≤ 0xBF && (0x80 ≤ d && d ≤ 0xBF) && validUtf8 r
      | _ => false
    else if b = 0xED then
      match rest with
      | c :: d :: r => 0x80 ≤ c && c ≤ 0x9F && (0x80 ≤ d && d ≤ 0xBF) && validUtf8 r
      | _ => false
    else if 0xEE ≤ b ∧ b ≤ 0xEF then
      match rest with
      | c :: d :: r => 0x80 ≤ c && c ≤ 0xBF && (0x80 ≤ d && d ≤ 0xBF) && validUtf8 r
      | _ => false
    else if b = 0xF0 then
      match rest with
      | c :: d :: e :: r =>
        0x90 ≤ c && c ≤ 0xBF && (0x80 ≤ d && d ≤ 0xBF) && (0x80 ≤ e && e ≤ 0xBF) && validUtf8 r
      | _ => false
    else if 0xF1 ≤ b ∧ b ≤ 0xF3 then
      match rest with
      | c :: d :: e :: r =>
        0x80 ≤ c && c ≤ 0xBF && (0x80 ≤ d && d ≤ 0xBF) && (0x80 ≤ e && e ≤ 0xBF) && validUtf8 r
      | _ => false
    else if b = 0xF4 then
      match rest with
      | c :: d :: e :: r =>
        0x80 ≤ c && c ≤ 0x8F && (0x80 ≤ d && d ≤ 0xBF) && (0x80 ≤ e && e ≤ 0xBF) && validUtf8 r
      | _ => false
    else false

/-- UTF-8 bytes of a string (`str::as_bytes` of a Rust `String`). -/
def strBytes (s : String) : List Nat :=
  s.toUTF8.toList.map (fun b => b.toNat)

/-- General purpose bit flag (a 16-bit field). -/
structure GeneralPurposeBitFlag where
  val : Nat
  deriving Repr, DecidableEq

/-- Bit 3: a data descriptor follows the payload. -/
def GeneralPurposeBitFlag.has_data_descriptor (f : GeneralPurposeBitFlag) : Bool :=
  f.val &&& 0x0008 ≠ 0

/-- Bit 11: language encoding flag (EFS, UTF-8). -/
def GeneralPurposeBitFlag.is_utf8 (f : GeneralPurposeBitFlag) : Bool :=
  f.val &&& 0x0800 ≠ 0

/-- Extra field record `(tag, size, data)` within a LFH or CDH. -/
structure ExtraField where
  tag : Nat
  size : Nat
  data : List Nat
  deriving Repr, DecidableEq

/-- Modelled from the spec: the parsed Unicode-path extra field (tag 0x7075),
whose struct declaration is not under src/ (only its consumers in
inspect.rs / compatibility.rs / rebuild.rs and their tests are).
Fields follow §3 of the spec and the test constructors. -/
structure UnicodePathExtraField where
  version : Nat
  name_crc32 : Nat
  data : List Nat
  decoded_string : Option String
  crc32_matched : Bool
  deriving Repr, DecidableEq

/-- The tag of the Unicode-path extra field. -/
def UnicodePathExtraField.TAG : Nat := 0x7075

/-- Modelled from the spec: the parsed ZIP64 extended information extra
(tag 0x0001), whose struct declaration is not under src/ (only consumers).
Per §3 it carries up to three optional 64-bit fields. -/
structure Zip64ExtendedInfo where
  uncompressed_size : Option Nat
  compressed_size : Option Nat
  local_header_offset : Option Nat
  deriving Repr, DecidableEq

/-- The tag of the ZIP64 extended information extra field. -/
def Zip64ExtendedInfo.TAG : Nat := 0x0001

/-- Central Directory Header, as consumed and produced by
inspect.rs / compatibility.rs / rebuild.rs (field set of the test
constructors, with the derived `zip64` and `unicode_path` slots). -/
structure CentralDirectoryHeader where
  signature : Nat
  version_made_by : Nat
  version_needed : Nat
  flags : GeneralPurposeBitFlag
  compression_method : Nat
  last_mod_time : Nat
  last_mod_date : Nat
  crc32 : Nat
  compressed_size : Nat
  uncompressed_size : Nat
  filename_length : Nat
  extra_field_length : Nat
  file_comment_length : Nat
  disk_number_start : Nat
  internal_file_attributes : Nat
  external_file_attributes : Nat
  local_header_offset : Nat
  filename : List Nat
  extra_fields : List ExtraField
  file_comment : List Nat
  zip64 : Option Zip64ExtendedInfo
  unicode_path : Option UnicodePathExtraField
  deriving Repr, DecidableEq

/-- Local File Header, same flavour as `CentralDirectoryHeader`. -/
structure LocalFileHeader where
  signature : Nat
  version_needed : Nat
  flags : GeneralPurposeBitFlag
  compression_method : Nat
  last_mod_time : Nat
  last_mod_date : Nat
  crc32 : Nat
  compressed_size : Nat
  uncompressed_size : Nat
  filename_length : Nat
  extra_field_length : Nat
  filename : List Nat
  extra_fields : List ExtraField
  zip64 : Option Zip64ExtendedInfo
  unicode_path : Option UnicodePathExtraField
  deriving Repr, DecidableEq

/-- Data descriptor value (standard or ZIP64 layout). -/
inductive DataDescriptor where
  | Standard (signature : Option Nat) (crc32 : Nat) (compressed_size : Nat)
      (uncompressed_size : Nat)
  | Zip64 (signature : Option Nat) (crc32 : Nat) (compressed_size : Nat)
      (uncompressed_size : Nat)
  deriving Repr, DecidableEq

/-- One archive member. -/
structure ZipFileEntry where
  cdh : CentralDirectoryHeader
  lfh : LocalFileHeader
  descriptor : Option DataDescriptor
  file_offset : Nat
  file_size : Nat
  deriving Repr, DecidableEq

/-- End of Central Directory record. -/
structure EndOfCentralDirectory where
  signature : Nat
  disk_number : Nat
  disk_number_with_eocd : Nat
  entries_on_disk : Nat
  total_entries : Nat
  central_directory_size : Nat
  central_directory_offset : Nat
  comment_length : Nat
  comment : List Nat
  deriving Repr, DecidableEq

/-- ZIP64 End of Central Directory header (fixed 56-byte part). -/
structure Zip64EndOfCentralDirectoryHeader where
  signature : Nat
  size_of_record : Nat
  version_made_by : Nat
  version_needed : Nat
  disk_number : Nat
  disk_number_with_eocd : Nat
  total_entries_on_disk : Nat
  total_entries : Nat
  central_directory_size : Nat
  central_directory_offset : Nat
  deriving Repr, DecidableEq

/-- ZIP64 End of Central Directory locator. -/
structure Zip64EndOfCentralDirectoryLocator where
  signature : Nat
  disk_with_eocd : Nat
  eocd_offset : Nat
  total_disks : Nat
  deriving Repr, DecidableEq

/-- ZIP64 EOCD with its raw extensible data sector. -/
structure Zip64EndOfCentralDirectory where
  header : Zip64EndOfCentralDirectoryHeader
  extensible : List Nat
  deriving Repr, DecidableEq

/-- Parsed archive, as consumed by inspect / compatibility / rebuild. -/
structure ZipFile where
  size : Nat
  eocd : EndOfCentralDirectory
  zip64_eocd : Option (Zip64EndOfCentralDirectory × Option Zip64EndOfCentralDirectoryLocator)
  entries : List ZipFileEntry
  deriving Repr, DecidableEq

/-! ## Compatibility analyzer (compatibility.rs) -/

/-- Prevalence of a feature across entries (derived `Ord` order:
`None < Sometimes < AlwaysForNonAscii < Always`). -/
inductive Prevalence where
  | None
  | Sometimes
  | AlwaysForNonAscii
  | Always
  deriving Repr, DecidableEq

/-- Numeric rank of `Prevalence` in its derived order. -/
def Prevalence.rank : Prevalence → Nat
  | .None => 0
  | .Sometimes => 1
  | .AlwaysForNonAscii => 2
  | .Always => 3

/-- `Ord::min` on `Prevalence`. -/
def Prevalence.minP (a b : Prevalence) : Prevalence :=
  if a.rank ≤ b.rank then a else b

/-- Compatibility classification of an archive. -/
inductive CompatibilityLevel where
  | Broken
  | AsciiOnly (with_utf8_flags : Prevalence) (with_unicode_path_fields : Prevalence)
  | Utf8Only (with_utf8_flags : Prevalence) (with_unicode_path_fields : Prevalence)
  | Other (with_unicode_path_fields : Prevalence)
  deriving Repr, DecidableEq

/-- The local `EncodingKind` enum of `analyze`. -/
inductive EncodingKind where
  | Ascii
  | Utf8
  | Other
  deriving Repr, DecidableEq

/-- Encoding detection of `analyze`: `str::from_utf8` then ASCII check. -/
def detectKind (filename : List Nat) : EncodingKind :=
  if validUtf8 filename then
    (if allAscii filename then .Ascii else .Utf8)
  else .Other

/-- Mutable state of the `analyze` loop. -/
structure AnalyzeState where
  has_broken : Bool
  all_ascii : Bool
  all_utf8 : Bool
  utf8_flags : Prevalence × Bool
  unicode_fields : Prevalence × Bool
  deriving Repr, DecidableEq

/-- "Update encoding stats" block of `analyze`. -/
def updEnc (st : AnalyzeState) (encoding : EncodingKind) : AnalyzeState :=
  { st with
    all_ascii := if encoding = .Ascii then st.all_ascii else false,
    all_utf8 := if encoding = .Other then false else st.all_utf8 }

/-- "Check UTF-8 flag" block of `analyze`; the second component is the
`break` decision. -/
def stepFlag (st : AnalyzeState) (flags : GeneralPurposeBitFlag)
    (encoding : EncodingKind) : AnalyzeState × Bool :=
  if flags.is_utf8 then
    if encoding = .Other then ({ st with has_broken := true }, true)
    else ({ st with utf8_flags := (st.utf8_flags.1, true) }, false)
  else
    ({ st with
        utf8_flags :=
          (st.utf8_flags.1.minP
            (match encoding with
              | .Ascii => .Always
              | _ => .AlwaysForNonAscii),
            st.utf8_flags.2) }, false)

/-- "Check unicode path extra field" block of `analyze`. -/
def stepUnicode (st : AnalyzeState) (encoding : EncodingKind)
    (up : Option UnicodePathExtraField) : AnalyzeState × Bool :=
  match up with
  | some u =>
    if u.crc32_matched then
      if u.decoded_string.isNone then ({ st with has_broken := true }, true)
      else ({ st with unicode_fields := (st.unicode_fields.1, true) }, false)
    else
      ({ st with
          unicode_fields :=
            (st.unicode_fields.1.minP
              (match encoding with
                | .Ascii => .Always
                | _ => .AlwaysForNonAscii),
              st.unicode_fields.2) }, false)
  | none =>
    ({ st with
        unicode_fields :=
          (st.unicode_fields.1.minP
            (match encoding with
              | .Ascii => .Always
              | _ => .AlwaysForNonAscii),
            st.unicode_fields.2) }, false)

/-- Processing of one header (one iteration of the inner loop of
`analyze`); the second component records whether `break` ran. -/
def processHeader (st : AnalyzeState) (flags : GeneralPurposeBitFlag)
    (filename : List Nat) (up : Option UnicodePathExtraField) :
    AnalyzeState × Bool :=
  let encoding := detectKind filename
  let st1 := updEnc st encoding
  let r := stepFlag st1 flags encoding
  if r.2 then (r.1, true) else stepUnicode r.1 encoding up

/-- Processing of one entry: CDH header first, then LFH header unless the
inner loop broke. -/
def processEntry (st : AnalyzeState) (e : ZipFileEntry) : AnalyzeState :=
  let r := processHeader st e.cdh.flags e.cdh.filename e.cdh.unicode_path
  if r.2 then r.1
  else (processHeader r.1 e.lfh.flags e.lfh.filename e.lfh.unicode_path).1

/-- Initial state of the `analyze` loop. -/
def analyzeInit : AnalyzeState :=
  ⟨false, true, true, (.Always, false), (.Always, false)⟩

/-- `CompatibilityLevel::analyze`. -/
def CompatibilityLevel.analyze (zip : ZipFile) : CompatibilityLevel :=
  let st := zip.entries.foldl processEntry analyzeInit
  let with_utf8_flags := if st.utf8_flags.2 then st.utf8_flags.1 else .None
  let with_unicode_path_fields :=
    if st.unicode_fields.2 then st.unicode_fields.1 else .None
  if st.has_broken then .Broken
  else if st.all_ascii then .AsciiOnly with_utf8_flags with_unicode_path_fields
  else if st.all_utf8 then .Utf8Only with_utf8_flags with_unicode_path_fields
  else .Other with_unicode_path_fields

/-- A single header (CDH or LFH) is "broken" in the sense actually
implemented by `analyze`: UTF-8 flag set on a non-UTF-8 filename, or a
Unicode-path extra whose CRC-32 matched but whose bytes failed to decode. -/
def headerBroken (flags : GeneralPurposeBitFlag) (filename : List Nat)
    (up : Option UnicodePathExtraField) : Bool :=
  (flags.is_utf8 && !(validUtf8 filename)) ||
    (match up with
      | some u => u.crc32_matched && u.decoded_string.isNone
      | none => false)

/-- An entry is broken when either of its headers is. -/
def entryBroken (e : ZipFileEntry) : Bool :=
  headerBroken e.cdh.flags e.cdh.filename e.cdh.unicode_path ||
    headerBroken e.lfh.flags e.lfh.filename e.lfh.unicode_path

/-- Mock constructors mirroring `create_mock_entry` / `create_mock_zip`
from the repository's test modules. -/
def mkCdh (filename : List Nat) (flagval : Nat)
    (up : Option UnicodePathExtraField) : CentralDirectoryHeader :=
  ⟨0x02014b50, 0, 0, ⟨flagval⟩, 0, 0, 0, 0, 0, 0, filename.length, 0, 0, 0,
    0, 0, 0, filename, [], [], none, up⟩

/-- Mock LFH, matching the test modules. -/
def mkLfh (filename : List Nat) (flagval : Nat)
    (up : Option UnicodePathExtraField) : LocalFileHeader :=
  ⟨0x04034b50, 0, ⟨flagval⟩, 0, 0, 0, 0, 0, 0, filename.length, 0, filename,
    [], none, up⟩

/-- Mock entry, matching the test modules. -/
def mkEntry (filename : List Nat) (flagval : Nat)
    (up : Option UnicodePathExtraField) : ZipFileEntry :=
  ⟨mkCdh filename flagval up, mkLfh filename flagval up, none, 0, 0⟩

/-- Mock archive, matching the test modules. -/
def mkZip (entries : List ZipFileEntry) : ZipFile :=
  ⟨0, ⟨0x06054b50, 0, 0, entries.length, entries.length, 0, 0, 0, []⟩, none,
    entries⟩


/-- Concrete archive for C5: one ASCII-named entry whose Unicode-path extra
has undecodable bytes but a mismatched CRC-32. -/
def zipC5 : ZipFile :=
  mkZip [mkEntry [97] 0 (some ⟨1, 0, [128], none, false⟩)]

/-- Concrete archive for C9: one valid-UTF-8 (non-ASCII) entry with the
UTF-8 flag set. -/
def zipC9base : ZipFile :=
  mkZip [mkEntry [195, 169] 0x0800 none]

/-- Concrete appended entry for C9: plain ASCII filename. -/
def entryC9 : ZipFileEntry :=
  mkEntry [97] 0 none

/-- `zipC9base` with `entryC9` appended. -/
def zipC9ext : ZipFile :=
  { zipC9base with entries := zipC9base.entries ++ [entryC9] }


/-! ## Parser (parse.rs) -/

/-- `ExtraField::parse_all` loop: repeatedly read `(tag, size, data)` while
at least 4 bytes remain; error when a declared size overruns or when 1-3
trailing bytes remain.  The loop consumes at least 4 bytes per iteration,
so a fuel of `data.length + 1` can never run out; fuel is structural
recursion only. -/
def ExtraField.parse_all_aux : Nat → List Nat → List ExtraField →
    Except String (List ExtraField)
  | fuel + 1, data, acc =>
    if 4 ≤ data.length then
      let tag := u16le data 0
      let size := u16le data 2
      let rest := data.drop 4
      if size ≤ rest.length then
        ExtraField.parse_all_aux fuel (rest.drop size)
          (acc ++ [⟨tag, size, rest.take size⟩])
      else .error "Extra field data incomplete"
    else if data.length = 0 then .ok acc
    else .error "Extra field data has extra bytes at the end"
  | 0, data, acc =>
    if data.length = 0 then .ok acc
    else .error "Extra field fuel exhausted"

/-- `ExtraField::parse_all`. -/
def ExtraField.parse_all (data : List Nat) : Except String (List ExtraField) :=
  ExtraField.parse_all_aux (data.length + 1) data []

/-- `EndOfCentralDirectory::parse`. -/
def EndOfCentralDirectory.parse (data : List Nat) :
    Except String EndOfCentralDirectory :=
  if data.length < 22 then .error "EOCD data too short"
  else if u32le data 0 ≠ 0x06054b50 then .error "Invalid EOCD signature"
  else
    if data.length < 22 + u16le data 20 then .error "EOCD comment data incomplete"
    else
      .ok ⟨u32le data 0, u16le data 4, u16le data 6, u16le data 8, u16le data 10,
        u32le data 12, u32le data 16, u16le data 20,
        (data.drop 22).take (u16le data 20)⟩

/-- Backwards scan for a 4-byte signature, from index `i` down to 0
(the `for i in (0..hi).rev()` loop of `ZipFile::parse`). -/
def scanBackSig (data : List Nat) (sig : Nat) : Nat → Option Nat
  | 0 => if u32le data 0 = sig then some 0 else none
  | i + 1 => if u32le data (i + 1) = sig then some (i + 1) else scanBackSig data sig i

/-- EOCD-signature scan over the tail buffer: positions `0 .. len-22`,
scanned from the end (`eocd_data.len().saturating_sub(21)` exclusive bound). -/
def findEocdOffsetInBuffer (data : List Nat) : Option Nat :=
  if data.length < 22 then none
  else scanBackSig data 0x06054b50 (data.length - 22)

/-- EOCD location of `ZipFile::parse`: read the last `min(65557, size)`
bytes, take the last signature occurrence, and parse the EOCD there; the
parse error (e.g. an overrunning comment) propagates. -/
def locateAndParseEocd (file : List Nat) :
    Except String (Nat × EndOfCentralDirectory) :=
  let search_size := min 65557 file.length
  let search_offset := file.length - search_size
  let eocd_data := file.drop search_offset
  match findEocdOffsetInBuffer eocd_data with
  | none => .error "EOCD signature not found"
  | some i =>
    match EndOfCentralDirectory.parse (eocd_data.drop i) with
    | .ok eocd => .ok (search_offset + i, eocd)
    | .error e => .error e

namespace ParseMod

/-- The `LocalFileHeader` struct exactly as declared in parse.rs (its field
set diverges from the one the inspector/rebuilder construct, so it is
modelled separately). -/
structure LocalFileHeader where
  signature : Nat
  version_needed : Nat
  flags : GeneralPurposeBitFlag
  compression_method : Nat
  last_mod_time : Nat
  last_mod_date : Nat
  crc32 : Nat
  compressed_size : Nat
  uncompressed_size : Nat
  file_name_length : Nat
  extra_field_length : Nat
  file_name : List Nat
  extra_fields : List ExtraField
  file_data_offset : Nat
  file_data_size : Nat
  deriving Repr, DecidableEq

/-- `LocalFileHeader::parse` from parse.rs: reads the fixed 30-byte prefix,
the variable tail, and sets `file_data_offset = offset + lfh_size` and
`file_data_size = compressed_size` (the LFH field). -/
def LocalFileHeader.parse (data : List Nat) (offset : Nat) :
    Except String ParseMod.LocalFileHeader :=
  if data.length < 30 then .error "LFH data too short"
  else if u32le data 0 ≠ 0x04034b50 then .error "Invalid LFH signature"
  else
    let file_name_length := u16le data 26
    let extra_field_length := u16le data 28
    if data.length < 30 + file_name_length + extra_field_length then
      .error "LFH data incomplete"
    else
      let file_name := (data.drop 30).take file_name_length
      let extra_field_data :=
        (data.drop (30 + file_name_length)).take extra_field_length
      match ExtraField.parse_all extra_field_data with
      | .error e => .error e
      | .ok extra_fields =>
        let lfh_size := 30 + file_name_length + extra_field_length
        .ok ⟨u32le data 0, u16le data 4, ⟨u16le data 6⟩, u16le data 8,
          u16le data 10, u16le data 12, u32le data 14, u32le data 18,
          u32le data 22, file_name_length, extra_field_length, file_name,
          extra_fields, offset + lfh_size, u32le data 18⟩

end ParseMod

/-- `DataDescriptor::is_next_section_signature`. -/
def isNextSectionSignature (value : Nat) : Bool :=
  value = 0x04034b50 || value = 0x02014b50 || value = 0x06054b50 ||
    value = 0x06064b50

/-- `DataDescriptor::parse_standard`: disambiguate the layout from the
4 bytes at offset 16 (assuming a signature) or 12 (assuming none), then
validate the signature when present. -/
def DataDescriptor.parse_standard (data : List Nat) : Except String DataDescriptor :=
  if data.length < 20 then .error "Data Descriptor data too short"
  else if isNextSectionSignature (u32le data 16) then
    if u32le data 0 ≠ 0x08074b50 then .error "Invalid Data Descriptor signature"
    else .ok (.Standard (some (u32le data 0)) (u32le data 4) (u32le data 8)
      (u32le data 12))
  else if isNextSectionSignature (u32le data 12) then
    .ok (.Standard none (u32le data 0) (u32le data 4) (u32le data 8))
  else .error "Unknown data after Data Descriptor"

/-- `DataDescriptor::parse_zip64`: same disambiguation at offsets 24 / 20,
with 64-bit size fields. -/
def DataDescriptor.parse_zip64 (data : List Nat) : Except String DataDescriptor :=
  if data.length < 28 then .error "Zip64 Data Descriptor data too short"
  else if isNextSectionSignature (u32le data 24) then
    if u32le data 0 ≠ 0x08074b50 then
      .error "Invalid Zip64 Data Descriptor signature"
    else .ok (.Zip64 (some (u32le data 0)) (u32le data 4) (u64le data 8)
      (u64le data 16))
  else if isNextSectionSignature (u32le data 20) then
    .ok (.Zip64 none (u32le data 0) (u64le data 4) (u64le data 12))
  else .error "Unknown data after Zip64 Data Descriptor"

/-- The ZIP64-layout condition of `ZipFile::parse`: either the LFH or CDH
carries a 0x0001 extra field. -/
def usesZip64Descriptor (lfh : LocalFileHeader) (cdh : CentralDirectoryHeader) : Bool :=
  lfh.extra_fields.any (fun ef => ef.tag == 0x0001) ||
    cdh.extra_fields.any (fun ef => ef.tag == 0x0001)

/-- Data descriptor resolution of `ZipFile::parse`: ZIP64 layout iff a
0x0001 extra is present on either header. -/
def resolveDescriptor (lfh : LocalFileHeader) (cdh : CentralDirectoryHeader)
    (data : List Nat) : Except String DataDescriptor :=
  if usesZip64Descriptor lfh cdh then DataDescriptor.parse_zip64 data
  else DataDescriptor.parse_standard data

/-- Concrete file for C3: a valid zero-comment EOCD record followed by a
later EOCD signature whose declared comment length (5) overruns the file. -/
def fileC3 : List Nat :=
  ([0x50, 0x4B, 0x05, 0x06] ++ List.replicate 18 0) ++
    ([0x50, 0x4B, 0x05, 0x06] ++ List.replicate 16 0 ++ [5, 0])

/-- Concrete LFH bytes for C4: flag bit 3 set, compressed size field 0,
one-byte filename, no extras. -/
def lfhC4bytes : List Nat :=
  le32 0x04034b50 ++ le16 20 ++ le16 8 ++ le16 0 ++ le16 0 ++ le16 0 ++
    le32 0 ++ le32 0 ++ le32 0 ++ le16 1 ++ le16 0 ++ [97]

/-- The CDH of the same C4 entry: declares compressed size 5 at local
header offset 100. -/
def cdhC4 : CentralDirectoryHeader :=
  { mkCdh [97] 8 none with compressed_size := 5, local_header_offset := 100 }

/-- Concrete 20-byte descriptor window for C8: offset 16 holds the LFH
signature (so the with-signature layout is assumed) but the leading 4 bytes
are not 0x08074b50. -/
def ddC8 : List Nat :=
  List.replicate 16 0 ++ [0x50, 0x4B, 0x03, 0x04]

/-- Concrete 20-byte descriptor window with a genuine signature, for the C8
witness. -/
def ddC8ok : List Nat :=
  [0x50, 0x4B, 0x07, 0x08] ++ le32 7 ++ le32 3 ++ le32 9 ++
    [0x50, 0x4B, 0x03, 0x04]


/-- Concrete valid file for the C3 witness: a single EOCD with a 2-byte
comment. -/
def fileC3w : List Nat :=
  [0x50, 0x4B, 0x05, 0x06] ++ List.replicate 16 0 ++ [2, 0] ++ [97, 98]

/-- The EOCD record parsed from `fileC3w`. -/
def eocdC3w : EndOfCentralDirectory :=
  ⟨0x06054b50, 0, 0, 0, 0, 0, 0, 2, [97, 98]⟩


/-! ## Inspector (inspect.rs) -/

/-- Strategy for handling Wave Dash when decoding from Shift_JIS. -/
inductive WaveDashHandling where
  | DecodeToFullwidthTilde
  | DecodeToWaveDash
  deriving Repr, DecidableEq

/-- Strategy for normalizing Wave Dash and Fullwidth Tilde. -/
inductive WaveDashNormalization where
  | Preserve
  | NormalizeToFullwidthTilde
  | NormalizeToWaveDash
  deriving Repr, DecidableEq

/-- Strategy for selecting which filename field to use. -/
inductive FieldSelectionStrategy where
  | CdhUnicodeThenLfhUnicodeThenCdh
  | CdhUnicodeThenLfhUnicodeThenLfh
  | LfhUnicodeThenCdhUnicodeThenCdh
  | LfhUnicodeThenCdhUnicodeThenLfh
  | CdhUnicodeThenCdh
  | CdhOnly
  | LfhUnicodeThenLfh
  | LfhOnly
  deriving Repr, DecidableEq

/-- Strategy for selecting the encoding. -/
inductive EncodingSelectionStrategy where
  | PreferOverallDetected (fallback_encoding : Option String) (ignore_utf8_flag : Bool)
  | EntryDetected (fallback_encoding : Option String) (ignore_utf8_flag : Bool)
  | ForceSpecified (encoding : String) (ignore_utf8_flag : Bool)
  deriving Repr, DecidableEq

/-- Configuration for inspecting ZIP archives. -/
structure InspectConfig where
  encoding : EncodingSelectionStrategy
  field_selection_strategy : FieldSelectionStrategy
  ignore_crc32_mismatch : Bool
  needs_original_bytes : Bool
  wave_dash_handling : WaveDashHandling
  wave_dash_normalization : WaveDashNormalization
  deriving Repr, DecidableEq

/-- Kind of inspected filename field. -/
inductive InspectedFilenameFieldKind where
  | CdhFilename
  | CdhUnicodePathExtraField
  | LfhFilename
  | LfhUnicodePathExtraField
  deriving Repr, DecidableEq

/-- Decoded string with metadata. -/
structure DecodedString where
  string : String
  has_errors : Bool
  encoding_used : String
  deriving Repr, DecidableEq

/-- Inspected filename field. -/
structure InspectedFilenameField where
  kind : InspectedFilenameFieldKind
  utf8_flag : Bool
  original_bytes : Option (List Nat)
  detected_encoding : Option String
  decoded : Option DecodedString
  deriving Repr, DecidableEq

/-- Inspected ZIP file entry. -/
structure InspectedEntry where
  filename : InspectedFilenameField
  uncompressed_size : Nat
  compressed_size : Nat
  deriving Repr, DecidableEq

/-- Inspected ZIP archive. -/
structure InspectedArchive where
  entries : List InspectedEntry
  overall_encoding : Option String
  contains_sjis_wave_dash : Bool
  contains_other_wave_dash : Bool
  contains_other_fullwidth_tilde : Bool
  deriving Repr, DecidableEq

/-- Inspect-phase error. -/
inductive ZipInspectError where
  | EncodingNotFound (label : String)
  deriving Repr, DecidableEq

/-- `EncodingOrAscii`: an encoding (identified by its canonical name) or the
pure-ASCII marker. -/
inductive EncodingOrAscii where
  | Ascii
  | Encoding (enc : String)
  deriving Repr, DecidableEq

/-- `EncodingOrAscii::name`. -/
def EncodingOrAscii.name : EncodingOrAscii → String
  | .Ascii => "ASCII"
  | .Encoding enc => enc

/-- `EncodingOrAscii::encoding` (the ASCII marker decodes as UTF-8). -/
def EncodingOrAscii.encoding : EncodingOrAscii → String
  | .Ascii => "UTF-8"
  | .Encoding enc => enc

/-- The external encoding library (chardetng + encoding_rs), the black-box
collaborator of the spec: `for_label` resolves a label to a canonical
encoding name; `guess` is the chardetng detector; `decode enc data` returns
`(decoded string, encoding actually used, had_errors)` as
`Encoding::decode` does. -/
structure EncodingLib where
  for_label : String → Option String
  guess : List Nat → String
  decode : String → List Nat → String × String × Bool

/-- Wave Dash U+301C. -/
def waveDashChar : Char := Char.ofNat 0x301C

/-- Fullwidth Tilde U+FF5E. -/
def fullwidthTildeChar : Char := Char.ofNat 0xFF5E

/-- `str::replace` of one char by a one-char string (expressed over the
character list so it evaluates in the kernel). -/
def replaceChar (s : String) (a b : Char) : String :=
  ⟨s.data.map (fun c => if c = a then b else c)⟩

/-- `str::contains(char)` (expressed over the character list so it
evaluates in the kernel). -/
def strContainsChar (s : String) (c : Char) : Bool :=
  s.data.contains c

/-- `decode_with_encoding` from inspect.rs: decode, then the Shift_JIS wave
dash handling, then normalization; `none` when decoding had errors and
`force` is off. -/
def decode_with_encoding (lib : EncodingLib) (data : List Nat)
    (encoding : String) (force : Bool) (wave_dash_handling : WaveDashHandling)
    (norm : WaveDashNormalization) : Option (String × Bool × String) :=
  let r := lib.decode encoding data
  let result := r.1
  let encodingUsed := r.2.1
  let hasErrors := r.2.2
  if force || !hasErrors then
    let s1 :=
      if encodingUsed = "Shift_JIS" ∧ wave_dash_handling = .DecodeToWaveDash then
        replaceChar result fullwidthTildeChar waveDashChar
      else result
    let s2 :=
      match norm with
      | .NormalizeToFullwidthTilde => replaceChar s1 waveDashChar fullwidthTildeChar
      | .NormalizeToWaveDash => replaceChar s1 fullwidthTildeChar waveDashChar
      | .Preserve => s1
    some (s2, hasErrors, encodingUsed)
  else none

/-- `detect_encoding` from inspect.rs: valid NUL-free UTF-8 short-circuits
(to ASCII or UTF-8); otherwise the chardetng guess is accepted iff decoding
under it reports no errors. -/
def detect_encoding (lib : EncodingLib) (data : List Nat) : Option EncodingOrAscii :=
  if validUtf8 data && !(data.contains 0) then
    some (if allAscii data then .Ascii else .Encoding "UTF-8")
  else
    match decode_with_encoding lib data (lib.guess data) false
        .DecodeToFullwidthTilde .Preserve with
    | some r => if !r.2.1 then some (.Encoding r.2.2) else none
    | none => none

/-- The ordered preference list of each field-selection strategy. -/
def fieldsFor : FieldSelectionStrategy → List InspectedFilenameFieldKind
  | .CdhUnicodeThenLfhUnicodeThenCdh =>
    [.CdhUnicodePathExtraField, .LfhUnicodePathExtraField, .CdhFilename]
  | .CdhUnicodeThenLfhUnicodeThenLfh =>
    [.CdhUnicodePathExtraField, .LfhUnicodePathExtraField, .LfhFilename]
  | .LfhUnicodeThenCdhUnicodeThenCdh =>
    [.LfhUnicodePathExtraField, .CdhUnicodePathExtraField, .CdhFilename]
  | .LfhUnicodeThenCdhUnicodeThenLfh =>
    [.LfhUnicodePathExtraField, .CdhUnicodePathExtraField, .LfhFilename]
  | .CdhUnicodeThenCdh => [.CdhUnicodePathExtraField, .CdhFilename]
  | .CdhOnly => [.CdhFilename]
  | .LfhUnicodeThenLfh => [.LfhUnicodePathExtraField, .LfhFilename]
  | .LfhOnly => [.LfhFilename]

/-- The `FieldSelectedFileEntry` local struct of `inspect`. -/
structure FieldSelectedFileEntry where
  kind : InspectedFilenameFieldKind
  utf8_flag : Bool
  original_bytes : List Nat
  deriving Repr, DecidableEq

/-- The source-selection loop of `inspect`: return the first kind that
accepts (a Unicode-path extra accepts iff present and its CRC-32 matched or
mismatches are ignored; a plain filename always accepts). -/
def pickField (cfg : InspectConfig) (e : ZipFileEntry) :
    List InspectedFilenameFieldKind → Option FieldSelectedFileEntry
  | [] => none
  | k :: rest =>
    match k with
    | .CdhFilename => some ⟨k, e.cdh.flags.is_utf8, e.cdh.filename⟩
    | .LfhFilename => some ⟨k, e.lfh.flags.is_utf8, e.lfh.filename⟩
    | .CdhUnicodePathExtraField =>
      match e.cdh.unicode_path with
      | some up =>
        if cfg.ignore_crc32_mismatch || up.crc32_matched then
          some ⟨k, true, up.data⟩
        else pickField cfg e rest
      | none => pickField cfg e rest
    | .LfhUnicodePathExtraField =>
      match e.lfh.unicode_path with
      | some up =>
        if cfg.ignore_crc32_mismatch || up.crc32_matched then
          some ⟨k, true, up.data⟩
        else pickField cfg e rest
      | none => pickField cfg e rest

/-- The per-entry selected source (the `unreachable!` branch of the source
is modelled by a junk default; every strategy list ends in an
always-accepting kind, so it is never taken). -/
def selectedField (cfg : InspectConfig) (e : ZipFileEntry) : FieldSelectedFileEntry :=
  (pickField cfg e (fieldsFor cfg.field_selection_strategy)).getD
    ⟨.CdhFilename, false, []⟩

/-- The `ignore_utf8_flag` carried by every encoding-selection strategy. -/
def EncodingSelectionStrategy.ignoreFlag : EncodingSelectionStrategy → Bool
  | .PreferOverallDetected _ i => i
  | .EntryDetected _ i => i
  | .ForceSpecified _ i => i

/-- Resolution of the configured fallback / forced encoding label
(`Encoding::for_label`), failing with `EncodingNotFound`. -/
def userEncodingOf (lib : EncodingLib) :
    EncodingSelectionStrategy → Except ZipInspectError (Option EncodingOrAscii)
  | .PreferOverallDetected fb _ | .EntryDetected fb _ =>
    match fb with
    | some name =>
      match lib.for_label name with
      | some enc => .ok (some (.Encoding enc))
      | none => .error (.EncodingNotFound name)
    | none => .ok none
  | .ForceSpecified name _ =>
    match lib.for_label name with
    | some enc => .ok (some (.Encoding enc))
    | none => .error (.EncodingNotFound name)

/-- Per-entry decoding of `inspect`: pick the encoding (UTF-8 for flagged or
Unicode-path sources, else by strategy), decode in forced mode, and retain
the original bytes only when configured. -/
def inspectEntryField (lib : EncodingLib) (cfg : InspectConfig)
    (overall user_encoding : Option EncodingOrAscii)
    (pd : FieldSelectedFileEntry) : InspectedFilenameField :=
  let detected := detect_encoding lib pd.original_bytes
  let encoding : Option EncodingOrAscii :=
    if (!cfg.encoding.ignoreFlag && pd.utf8_flag) ||
        (pd.kind = .CdhUnicodePathExtraField || pd.kind = .LfhUnicodePathExtraField) then
      some (.Encoding "UTF-8")
    else
      match cfg.encoding with
      | .PreferOverallDetected _ _ => (overall.or detected).or user_encoding
      | .EntryDetected _ _ => detected.or user_encoding
      | .ForceSpecified _ _ => user_encoding
  let decoded := encoding.bind (fun enc =>
    (decode_with_encoding lib pd.original_bytes enc.encoding true
        cfg.wave_dash_handling cfg.wave_dash_normalization).map
      (fun r => DecodedString.mk r.1 r.2.1 r.2.2))
  let original_bytes :=
    if cfg.needs_original_bytes then some pd.original_bytes else none
  ⟨pd.kind, pd.utf8_flag, original_bytes, detected.map (fun d => d.name), decoded⟩

/-- `entry.cdh.zip64.and_then(|z| z.uncompressed_size).unwrap_or(cdh value)`. -/
def effUncompressedSize (e : ZipFileEntry) : Nat :=
  ((e.cdh.zip64.bind (fun z => z.uncompressed_size)).getD e.cdh.uncompressed_size)

/-- `entry.cdh.zip64.and_then(|z| z.compressed_size).unwrap_or(cdh value)`. -/
def effCompressedSize (e : ZipFileEntry) : Nat :=
  ((e.cdh.zip64.bind (fun z => z.compressed_size)).getD e.cdh.compressed_size)

/-- The Wave-Dash presence loop at the end of `inspect`, with its
`if is_sjis { } else if has_wd { } else if has_ft { }` chain. -/
def waveDashFlags (entries : List InspectedEntry) : Bool × Bool × Bool :=
  entries.foldl
    (fun acc entry =>
      match entry.filename.decoded with
      | some decoded =>
        let has_wd := strContainsChar decoded.string waveDashChar
        let has_ft := strContainsChar decoded.string fullwidthTildeChar
        if has_wd || has_ft then
          if decoded.encoding_used = "Shift_JIS" then (true, acc.2.1, acc.2.2)
          else if has_wd then (acc.1, true, acc.2.2)
          else if has_ft then (acc.1, acc.2.1, true)
          else acc
        else acc
      | none => acc)
    (false, false, false)

/-- `InspectedArchive::inspect`. -/
def InspectedArchive.inspect (lib : EncodingLib) (zip : ZipFile)
    (cfg : InspectConfig) : Except ZipInspectError InspectedArchive :=
  let predetect := zip.entries.map (selectedField cfg)
  let concatenated := (predetect.map (fun pd => pd.original_bytes)).flatten
  let overall := detect_encoding lib concatenated
  match userEncodingOf lib cfg.encoding with
  | .error err => .error err
  | .ok user_encoding =>
    let entries := (predetect.zip zip.entries).map (fun pe =>
      { filename := inspectEntryField lib cfg overall user_encoding pe.1,
        uncompressed_size := effUncompressedSize pe.2,
        compressed_size := effCompressedSize pe.2 : InspectedEntry })
    let flags := waveDashFlags entries
    .ok ⟨entries, overall.map (fun o => o.name), flags.1, flags.2.1, flags.2.2⟩


/-! ## Rebuilder (rebuild.rs) -/

/-- A chunk of the rebuilt zip file. -/
inductive RebuildChunk where
  | Reference (offset : Nat) (size : Nat)
  | Binary (bytes : List Nat)
  deriving Repr, DecidableEq

/-- The size contributed by one chunk. -/
def chunkSize : RebuildChunk → Nat
  | .Binary b => b.length
  | .Reference _ s => s

/-- Sum of the chunk sizes of a plan. -/
def sumChunks (l : List RebuildChunk) : Nat :=
  (l.map chunkSize).sum

/-- Serialization of an extra-fields list (tag, size, then data, each
little-endian). -/
def extraFieldsBytes (efs : List ExtraField) : List Nat :=
  (efs.map (fun ef => le16 ef.tag ++ le16 ef.size ++ ef.data)).flatten

/-- `ZipSerialize::to_bytes` for `LocalFileHeader`. -/
def LocalFileHeader.to_bytes (h : LocalFileHeader) : List Nat :=
  le32 h.signature ++ le16 h.version_needed ++ le16 h.flags.val ++
    le16 h.compression_method ++ le16 h.last_mod_time ++ le16 h.last_mod_date ++
    le32 h.crc32 ++ le32 h.compressed_size ++ le32 h.uncompressed_size ++
    le16 h.filename_length ++ le16 h.extra_field_length ++ h.filename ++
    extraFieldsBytes h.extra_fields

/-- `ZipSerialize::to_bytes` for `CentralDirectoryHeader`. -/
def CentralDirectoryHeader.to_bytes (h : CentralDirectoryHeader) : List Nat :=
  le32 h.signature ++ le16 h.version_made_by ++ le16 h.version_needed ++
    le16 h.flags.val ++ le16 h.compression_method ++ le16 h.last_mod_time ++
    le16 h.last_mod_date ++ le32 h.crc32 ++ le32 h.compressed_size ++
    le32 h.uncompressed_size ++ le16 h.filename_length ++
    le16 h.extra_field_length ++ le16 h.file_comment_length ++
    le16 h.disk_number_start ++ le16 h.internal_file_attributes ++
    le32 h.external_file_attributes ++ le32 h.local_header_offset ++
    h.filename ++ extraFieldsBytes h.extra_fields ++ h.file_comment

/-- `ZipSerialize::to_bytes` for `Zip64EndOfCentralDirectoryHeader`. -/
def Zip64EndOfCentralDirectoryHeader.to_bytes
    (h : Zip64EndOfCentralDirectoryHeader) : List Nat :=
  le32 h.signature ++ le64 h.size_of_record ++ le16 h.version_made_by ++
    le16 h.version_needed ++ le32 h.disk_number ++ le32 h.disk_number_with_eocd ++
    le64 h.total_entries_on_disk ++ le64 h.total_entries ++
    le64 h.central_directory_size ++ le64 h.central_directory_offset

/-- `ZipSerialize::to_bytes` for `Zip64EndOfCentralDirectoryLocator`. -/
def Zip64EndOfCentralDirectoryLocator.to_bytes
    (l : Zip64EndOfCentralDirectoryLocator) : List Nat :=
  le32 l.signature ++ le32 l.disk_with_eocd ++ le64 l.eocd_offset ++
    le32 l.total_disks

/-- `ZipSerialize::to_bytes` for `EndOfCentralDirectory`. -/
def EndOfCentralDirectory.to_bytes (e : EndOfCentralDirectory) : List Nat :=
  le32 e.signature ++ le16 e.disk_number ++ le16 e.disk_number_with_eocd ++
    le16 e.entries_on_disk ++ le16 e.total_entries ++
    le32 e.central_directory_size ++ le32 e.central_directory_offset ++
    le16 e.comment_length ++ e.comment

/-- The rebuilt filename of one entry: the decoded string's UTF-8 bytes, or
the retained original bytes (`unwrap_or_default`, i.e. empty when they were
not retained). -/
def chooseFilename (f : InspectedFilenameField) : List Nat :=
  match f.decoded with
  | some d => strBytes d.string
  | none => f.original_bytes.getD []

/-- The rebuilt Local File Header of one retained entry (rebuild.rs lines
82-136): strip 0x0001 / 0x7075 extras, set bit 11 and clear bit 3, copy CRC
from the CDH, and promote both size fields to ZIP64 when either effective
size is >= 0xFFFFFFFF. -/
def buildLfh (e : ZipFileEntry) (filename : List Nat) : LocalFileHeader :=
  let uncompressed_size := effUncompressedSize e
  let compressed_size := effCompressedSize e
  let crc32 := e.cdh.crc32
  let version_needed := max (max e.cdh.version_needed e.lfh.version_needed) 20
  let base_extras := e.lfh.extra_fields.filter
    (fun ef => !(ef.tag == Zip64ExtendedInfo.TAG) &&
      !(ef.tag == UnicodePathExtraField.TAG))
  let need := decide (0xFFFFFFFF ≤ compressed_size ∨ 0xFFFFFFFF ≤ uncompressed_size)
  let version_needed := if need then max version_needed 45 else version_needed
  let lfh_compressed_size :=
    if need then 0xFFFFFFFF else compressed_size % 4294967296
  let lfh_uncompressed_size :=
    if need then 0xFFFFFFFF else uncompressed_size % 4294967296
  let zdata := le64 uncompressed_size ++ le64 compressed_size
  let extra_fields :=
    if need then ⟨Zip64ExtendedInfo.TAG, zdata.length % 65536, zdata⟩ :: base_extras
    else base_extras
  let flagval := (e.lfh.flags.val ||| 0x0800) &&& 0xFFF7
  ⟨0x04034b50, version_needed, ⟨flagval⟩, e.lfh.compression_method,
    e.lfh.last_mod_time, e.lfh.last_mod_date, crc32, lfh_compressed_size,
    lfh_uncompressed_size, filename.length % 65536,
    (extra_fields.foldl (fun a ef => a + (4 + ef.size)) 0) % 65536,
    filename, extra_fields, none, none⟩

/-- The 0x0001 extra data of a rebuilt CDH: exactly the fields that are
>= 0xFFFFFFFF, in the fixed order uncompressed size, compressed size,
local header offset. -/
def zip64CdhData (e : ZipFileEntry) (lfh_offset : Nat) : List Nat :=
  (if 0xFFFFFFFF ≤ effUncompressedSize e then le64 (effUncompressedSize e) else []) ++
  (if 0xFFFFFFFF ≤ effCompressedSize e then le64 (effCompressedSize e) else []) ++
  (if 0xFFFFFFFF ≤ lfh_offset then le64 lfh_offset else [])

/-- The rebuilt Central Directory Header of one retained entry (rebuild.rs
lines 174-254): strip 0x0001 / 0x7075 extras, set bit 11 and clear bit 3,
`version_made_by = (upper byte) | 63`, and promote exactly the fields that
are >= 0xFFFFFFFF, in the order uncompressed, compressed, local offset. -/
def buildCdh (e : ZipFileEntry) (filename : List Nat) (lfh_offset : Nat) :
    CentralDirectoryHeader :=
  let uncompressed_size := effUncompressedSize e
  let compressed_size := effCompressedSize e
  let crc32 := e.cdh.crc32
  let base_extras := e.cdh.extra_fields.filter
    (fun ef => !(ef.tag == Zip64ExtendedInfo.TAG) &&
      !(ef.tag == UnicodePathExtraField.TAG))
  let version_made_by := (e.cdh.version_made_by &&& 0xFF00) ||| 63
  let version_needed := max (max e.cdh.version_needed e.lfh.version_needed) 20
  let need := decide (0xFFFFFFFF ≤ compressed_size ∨ 0xFFFFFFFF ≤ uncompressed_size ∨
    0xFFFFFFFF ≤ lfh_offset)
  let version_needed := if need then max version_needed 45 else version_needed
  let cdh_uncompressed_size :=
    if 0xFFFFFFFF ≤ uncompressed_size then 0xFFFFFFFF
    else uncompressed_size % 4294967296
  let cdh_compressed_size :=
    if 0xFFFFFFFF ≤ compressed_size then 0xFFFFFFFF
    else compressed_size % 4294967296
  let cdh_local_header_offset :=
    if 0xFFFFFFFF ≤ lfh_offset then 0xFFFFFFFF else lfh_offset % 4294967296
  let zdata := zip64CdhData e lfh_offset
  let extra_fields :=
    if need then ⟨Zip64ExtendedInfo.TAG, zdata.length % 65536, zdata⟩ :: base_extras
    else base_extras
  let flagval := (e.cdh.flags.val ||| 0x0800) &&& 0xFFF7
  ⟨0x02014b50, version_made_by, version_needed, ⟨flagval⟩,
    e.cdh.compression_method, e.cdh.last_mod_time, e.cdh.last_mod_date, crc32,
    cdh_compressed_size, cdh_uncompressed_size, filename.length % 65536,
    (extra_fields.foldl (fun a ef => a + (4 + ef.size)) 0) % 65536,
    e.cdh.file_comment_length, 0, e.cdh.internal_file_attributes,
    e.cdh.external_file_attributes, cdh_local_header_offset, filename,
    extra_fields, e.cdh.file_comment, none, none⟩

/-- The `CentralDirectoryEntryInfo` record of `rebuild` (the carried sizes
and CRC are recomputable from `entry`, so only the rest is stored). -/
structure CdInfo where
  lfh_offset : Nat
  filename : List Nat
  entry : ZipFileEntry
  deriving Repr, DecidableEq

/-- One iteration of the first pass of `rebuild`: skip omitted indices,
otherwise emit the LFH bytes and a payload reference, advancing the offset
and recording the CD info. -/
def pass1Step (omit_entries : List Nat)
    (acc : List RebuildChunk × Nat × List CdInfo)
    (ie : Nat × (ZipFileEntry × InspectedEntry)) :
    List RebuildChunk × Nat × List CdInfo :=
  if omit_entries.contains ie.1 then acc
  else
    let entry := ie.2.1
    let filename := chooseFilename ie.2.2.filename
    let lfh_bytes := LocalFileHeader.to_bytes (buildLfh entry filename)
    (acc.1 ++ [RebuildChunk.Binary lfh_bytes,
       RebuildChunk.Reference entry.file_offset (effCompressedSize entry)],
     acc.2.1 + lfh_bytes.length + effCompressedSize entry,
     acc.2.2 ++ [⟨acc.2.1, filename, entry⟩])

/-- First pass of `rebuild` over the enumerated entries. -/
def rebuildPass1 (omit_entries : List Nat)
    (pairs : List (Nat × (ZipFileEntry × InspectedEntry))) :
    List RebuildChunk × Nat × List CdInfo :=
  pairs.foldl (pass1Step omit_entries) ([], 0, [])

/-- One iteration of the second pass of `rebuild`: emit one rebuilt CDH. -/
def pass2Step (acc : List RebuildChunk × Nat) (info : CdInfo) :
    List RebuildChunk × Nat :=
  let cdh_bytes :=
    CentralDirectoryHeader.to_bytes (buildCdh info.entry info.filename info.lfh_offset)
  (acc.1 ++ [RebuildChunk.Binary cdh_bytes], acc.2 + cdh_bytes.length)

/-- Second pass of `rebuild`: emit the rebuilt CDH bytes for each retained
entry. -/
def rebuildPass2 (start : List RebuildChunk × Nat) (cds : List CdInfo) :
    List RebuildChunk × Nat :=
  cds.foldl pass2Step start

/-- Tail of `rebuild`: the optional ZIP64 EOCD + locator, then the EOCD. -/
def rebuildTail (zip : ZipFile) (chunks2 : List RebuildChunk)
    (cd_start_offset cd_end_offset : Nat) (total_entries : Nat) :
    List RebuildChunk × Nat :=
  let cd_size := cd_end_offset - cd_start_offset
  let need_zip64_eocd := decide (0xFFFFFFFF ≤ cd_start_offset ∨
    0xFFFFFFFF ≤ cd_size ∨ 0xFFFF ≤ total_entries)
  let step3 :=
    if need_zip64_eocd then
      let zip64_eocd_bytes := Zip64EndOfCentralDirectoryHeader.to_bytes
        ⟨0x06064b50, 44, 63, 45, 0, 0, total_entries, total_entries, cd_size,
          cd_start_offset⟩
      let zip64_locator_bytes := Zip64EndOfCentralDirectoryLocator.to_bytes
        ⟨0x07064b50, 0, cd_end_offset, 1⟩
      (chunks2 ++ [RebuildChunk.Binary zip64_eocd_bytes,
         RebuildChunk.Binary zip64_locator_bytes],
       cd_end_offset + zip64_eocd_bytes.length + 20)
    else (chunks2, cd_end_offset)
  let eocd : EndOfCentralDirectory :=
    ⟨0x06054b50, 0, 0,
      (if 0xFFFF ≤ total_entries then 0xFFFF else total_entries % 65536),
      (if 0xFFFF ≤ total_entries then 0xFFFF else total_entries % 65536),
      (if 0xFFFFFFFF ≤ cd_size then 0xFFFFFFFF else cd_size % 4294967296),
      (if 0xFFFFFFFF ≤ cd_start_offset then 0xFFFFFFFF
       else cd_start_offset % 4294967296),
      zip.eocd.comment_length, zip.eocd.comment⟩
  let eocd_bytes := EndOfCentralDirectory.to_bytes eocd
  (step3.1 ++ [RebuildChunk.Binary eocd_bytes], step3.2 + eocd_bytes.length)

/-- `rebuild`: inspect, then the two passes and the tail. -/
def rebuild (lib : EncodingLib) (zip : ZipFile) (config : InspectConfig)
    (omit_entries : List Nat) :
    Except ZipInspectError (List RebuildChunk × Nat) :=
  match InspectedArchive.inspect lib zip config with
  | .error e => .error e
  | .ok inspected =>
    let step1 := rebuildPass1 omit_entries ((zip.entries.zip inspected.entries).enum)
    let step2 := rebuildPass2 (step1.1, step1.2.1) step1.2.2
    .ok (rebuildTail zip step2.1 step1.2.1 step2.2 step1.2.2.length)


/-- Acceptance predicate on filename sources, written from the claim/spec
words (for comparison with `pickField`): a Unicode-path extra passes iff it
is present and its CRC matched or mismatches are ignored; a plain filename
field always passes. -/
def acceptsSpec (cfg : InspectConfig) (e : ZipFileEntry) :
    InspectedFilenameFieldKind → Bool
  | .CdhFilename => true
  | .LfhFilename => true
  | .CdhUnicodePathExtraField =>
    match e.cdh.unicode_path with
    | some up => cfg.ignore_crc32_mismatch || up.crc32_matched
    | none => false
  | .LfhUnicodePathExtraField =>
    match e.lfh.unicode_path with
    | some up => cfg.ignore_crc32_mismatch || up.crc32_matched
    | none => false

/-- The bytes of a filename source kind. -/
def sourceBytes (e : ZipFileEntry) : InspectedFilenameFieldKind → List Nat
  | .CdhFilename => e.cdh.filename
  | .LfhFilename => e.lfh.filename
  | .CdhUnicodePathExtraField => ((e.cdh.unicode_path.map (fun u => u.data)).getD [])
  | .LfhUnicodePathExtraField => ((e.lfh.unicode_path.map (fun u => u.data)).getD [])

/-- The reported UTF-8 flag of a filename source kind: the host header's
bit 11 for plain filename fields, logically true for Unicode-path extras. -/
def sourceFlag (e : ZipFileEntry) : InspectedFilenameFieldKind → Bool
  | .CdhFilename => e.cdh.flags.is_utf8
  | .LfhFilename => e.lfh.flags.is_utf8
  | .CdhUnicodePathExtraField => true
  | .LfhUnicodePathExtraField => true

/-- Entry for the C1 counterexample: its 32-bit CDH compressed size is
exactly 0xFFFFFFFF (which fits in 32 bits) and it has no ZIP64 extra. -/
def entryC1 : ZipFileEntry :=
  { mkEntry [97] 0 none with
    cdh := { mkCdh [97] 0 none with compressed_size := 0xFFFFFFFF } }

/-- Entry for the C1 witness: ZIP64 sizes of 2^32. -/
def entryC1w : ZipFileEntry :=
  { mkEntry [97] 0 none with
    cdh := { mkCdh [97] 0 none with
      zip64 := some ⟨some 4294967296, some 4294967296, none⟩ } }

/-- A trivial encoding library: no labels resolve, the detector guess
always decodes with errors. -/
def libTriv : EncodingLib :=
  ⟨fun _ => none, fun _ => "X", fun _ _ => ("", "X", true)⟩

/-- Config for C2: entry-detected encoding with no fallback, original bytes
not retained. -/
def configC2 : InspectConfig :=
  ⟨.EntryDetected none false, .CdhUnicodeThenLfhUnicodeThenCdh, false, false,
    .DecodeToFullwidthTilde, .Preserve⟩

/-- Archive for C2: one entry whose filename byte 0x80 is not valid UTF-8
(and not decodable by the detector above). -/
def zipC2 : ZipFile :=
  mkZip [mkEntry [128] 0 none]

/-- The decoded string of the C6 entry: U+301C followed by U+FF5E. -/
def sC6 : String :=
  String.mk [waveDashChar, fullwidthTildeChar]

/-- Encoding library for C6: decoding yields `sC6` under UTF-8 with no
errors (which is what encoding_rs returns for those UTF-8 bytes). -/
def libC6 : EncodingLib :=
  ⟨fun _ => none, fun _ => "X", fun _ _ => (sC6, "UTF-8", false)⟩

/-- Archive for C6: one UTF-8-flagged entry whose filename bytes are the
UTF-8 encoding of U+301C U+FF5E. -/
def zipC6 : ZipFile :=
  mkZip [mkEntry [0xE3, 0x80, 0x9C, 0xEF, 0xBD, 0x9E] 0x0800 none]

/-- Config for C6. -/
def configC6 : InspectConfig :=
  ⟨.PreferOverallDetected none false, .CdhUnicodeThenLfhUnicodeThenCdh, false,
    false, .DecodeToFullwidthTilde, .Preserve⟩

/-- The chunk plan of rebuilding an empty archive: just the 22-byte EOCD. -/
def chunksC10 : List RebuildChunk :=
  [RebuildChunk.Binary (EndOfCentralDirectory.to_bytes
    ⟨0x06054b50, 0, 0, 0, 0, 0, 0, 0, []⟩)]

/-! ## Theorems -/

lemma updEnc_has_broken (st : AnalyzeState) (enc : EncodingKind) :
    (updEnc st enc).has_broken = st.has_broken := rfl

lemma detectKind_eq_other (n : List Nat) :
    (detectKind n = EncodingKind.Other) ↔ validUtf8 n = false := by
  unfold detectKind
  split
  · split <;> simp_all
  · simp_all

lemma stepFlag_fst_broken (st : AnalyzeState) (f : GeneralPurposeBitFlag)
    (enc : EncodingKind) :
    ((stepFlag st f enc).1).has_broken
      = (st.has_broken || (f.is_utf8 && decide (enc = .Other))) := by
  unfold stepFlag
  split <;> rename_i h
  · split <;> simp_all
  · simp_all

lemma stepFlag_snd (st : AnalyzeState) (f : GeneralPurposeBitFlag)
    (enc : EncodingKind) :
    (stepFlag st f enc).2 = (f.is_utf8 && decide (enc = .Other)) := by
  unfold stepFlag
  split <;> rename_i h
  · split <;> simp_all
  · simp_all

lemma stepUnicode_fst_broken (st : AnalyzeState) (enc : EncodingKind)
    (up : Option UnicodePathExtraField) :
    ((stepUnicode st enc up).1).has_broken
      = (st.has_broken ||
          (match up with
            | some u => u.crc32_matched && u.decoded_string.isNone
            | none => false)) := by
  unfold stepUnicode
  cases up with
  | none => simp
  | some u =>
    by_cases hc : u.crc32_matched <;> by_cases hd : u.decoded_string.isNone <;>
      simp_all

lemma processHeader_fst_broken (st : AnalyzeState) (f : GeneralPurposeBitFlag)
    (n : List Nat) (up : Option UnicodePathExtraField) :
    ((processHeader st f n up).1).has_broken
      = (st.has_broken || headerBroken f n up) := by
  unfold processHeader headerBroken
  by_cases hstop : (stepFlag (updEnc st (detectKind n)) f (detectKind n)).2
  · rw [if_pos hstop]
    rw [stepFlag_snd] at hstop
    simp only [Bool.and_eq_true, decide_eq_true_eq] at hstop
    obtain ⟨h1, h2⟩ := hstop
    have hdk : detectKind n = EncodingKind.Other := h2
    rw [detectKind_eq_other] at h2
    simp [stepFlag_fst_broken, updEnc_has_broken, h1, h2, hdk]
  · rw [if_neg (by simp_all)]
    rw [stepUnicode_fst_broken, stepFlag_fst_broken, updEnc_has_broken]
    rw [stepFlag_snd] at hstop
    by_cases hv : validUtf8 n
    · have : decide (detectKind n = EncodingKind.Other) = false := by
        simp [detectKind_eq_other, hv]
      simp [this, hv, Bool.or_assoc]
    · have h2 : detectKind n = EncodingKind.Other := by
        rw [detectKind_eq_other]; simp_all
      simp [h2] at hstop
      simp [h2, hstop, Bool.or_assoc]

lemma processHeader_snd_broken (st : AnalyzeState) (f : GeneralPurposeBitFlag)
    (n : List Nat) (up : Option UnicodePathExtraField)
    (h : (processHeader st f n up).2 = true) : headerBroken f n up = true := by
  unfold processHeader at h
  by_cases hstop : (stepFlag (updEnc st (detectKind n)) f (detectKind n)).2
  · rw [stepFlag_snd] at hstop
    simp only [Bool.and_eq_true, decide_eq_true_eq] at hstop
    obtain ⟨h1, h2⟩ := hstop
    rw [detectKind_eq_other] at h2
    simp [headerBroken, h1, h2]
  · rw [if_neg (by simp_all)] at h
    unfold stepUnicode at h
    cases hu : up with
    | none => simp [hu] at h
    | some u =>
      simp only [hu] at h
      by_cases hc : u.crc32_matched <;> by_cases hd : u.decoded_string.isNone <;>
        simp_all [headerBroken]

lemma processEntry_broken (st : AnalyzeState) (e : ZipFileEntry) :
    (processEntry st e).has_broken = (st.has_broken || entryBroken e) := by
  unfold processEntry entryBroken
  by_cases hstop : (processHeader st e.cdh.flags e.cdh.filename e.cdh.unicode_path).2
  · rw [if_pos hstop]
    have hb := processHeader_snd_broken _ _ _ _ hstop
    rw [processHeader_fst_broken, hb]
    simp
  · rw [if_neg (by simp_all)]
    rw [processHeader_fst_broken, processHeader_fst_broken, Bool.or_assoc]

lemma foldl_processEntry_broken (es : List ZipFileEntry) :
    ∀ st : AnalyzeState,
      (es.foldl processEntry st).has_broken = (st.has_broken || es.any entryBroken) := by
  induction es with
  | nil => intro st; simp
  | cons e es ih =>
    intro st
    simp only [List.foldl_cons, List.any_cons]
    rw [ih, processEntry_broken, Bool.or_assoc]


lemma stepFlag_fst_all_utf8 (st : AnalyzeState) (f : GeneralPurposeBitFlag)
    (enc : EncodingKind) : ((stepFlag st f enc).1).all_utf8 = st.all_utf8 := by
  unfold stepFlag
  split
  · split <;> rfl
  · rfl

lemma stepUnicode_fst_all_utf8 (st : AnalyzeState) (enc : EncodingKind)
    (up : Option UnicodePathExtraField) :
    ((stepUnicode st enc up).1).all_utf8 = st.all_utf8 := by
  unfold stepUnicode
  cases up with
  | none => rfl
  | some u =>
    by_cases hc : u.crc32_matched <;> by_cases hd : u.decoded_string.isNone <;>
      simp_all

lemma processHeader_fst_all_utf8 (st : AnalyzeState) (f : GeneralPurposeBitFlag)
    (n : List Nat) (up : Option UnicodePathExtraField)
    (h : validUtf8 n = true) :
    ((processHeader st f n up).1).all_utf8 = st.all_utf8 := by
  unfold processHeader
  have henc : (updEnc st (detectKind n)).all_utf8 = st.all_utf8 := by
    unfold updEnc
    have : detectKind n ≠ EncodingKind.Other := by
      rw [Ne, detectKind_eq_other, h]; simp
    simp [this]
  by_cases hstop : (stepFlag (updEnc st (detectKind n)) f (detectKind n)).2
  · rw [if_pos hstop]
    rw [stepFlag_fst_all_utf8, henc]
  · rw [if_neg (by simp_all)]
    rw [stepUnicode_fst_all_utf8, stepFlag_fst_all_utf8, henc]

lemma processEntry_all_utf8 (st : AnalyzeState) (e : ZipFileEntry)
    (hc : validUtf8 e.cdh.filename = true) (hl : validUtf8 e.lfh.filename = true) :
    (processEntry st e).has_broken = true ∨
      (processEntry st e).all_utf8 = st.all_utf8 := by
  unfold processEntry
  by_cases hstop : (processHeader st e.cdh.flags e.cdh.filename e.cdh.unicode_path).2
  · left
    rw [if_pos hstop]
    have hb := processHeader_snd_broken _ _ _ _ hstop
    rw [processHeader_fst_broken, hb]
    simp
  · right
    rw [if_neg (by simp_all)]
    rw [processHeader_fst_all_utf8 _ _ _ _ hl, processHeader_fst_all_utf8 _ _ _ _ hc]

lemma analyze_utf8only_state (z : ZipFile) (a b : Prevalence)
    (h : CompatibilityLevel.analyze z = .Utf8Only a b) :
    (z.entries.foldl processEntry analyzeInit).has_broken = false ∧
      (z.entries.foldl processEntry analyzeInit).all_utf8 = true := by
  unfold CompatibilityLevel.analyze at h
  simp only at h
  split at h
  · simp at h
  · split at h
    · simp at h
    · split at h
      · simp_all
      · simp at h

/-- C5 (counterexample): an archive whose only entry carries a Unicode-path
extra with undecodable bytes (`decoded_string = none`) but a mismatched
CRC-32 is classified `AsciiOnly`, not `Broken`, contradicting the claim
that any undecodable Unicode-path extra makes the archive Broken
"regardless of whether its embedded CRC-32 matches". -/
theorem broken_crc32_counterexample :
    CompatibilityLevel.analyze zipC5 = .AsciiOnly .None .None ∧
    zipC5.entries.any (fun e =>
      match e.cdh.unicode_path with
      | some u => u.decoded_string.isNone
      | none => false) = true := by
  constructor
  · decide
  · decide

/-- C5 (amended): `analyze` returns `Broken` iff some entry has a CDH or LFH
whose UTF-8 flag is set while its filename bytes are not valid UTF-8, or
whose Unicode-path extra has a *matching* CRC-32 and bytes that fail to
decode as UTF-8 (a mismatched-CRC extra is ignored). -/
theorem analyze_broken_iff (z : ZipFile) :
    CompatibilityLevel.analyze z = .Broken ↔ z.entries.any entryBroken = true := by
  have h := foldl_processEntry_broken z.entries analyzeInit
  rw [show analyzeInit.has_broken = false from rfl, Bool.false_or] at h
  unfold CompatibilityLevel.analyze
  simp only
  constructor
  · intro hb
    rw [← h]
    by_cases hbk : (z.entries.foldl processEntry analyzeInit).has_broken
    · exact hbk
    · exfalso
      simp only [hbk, if_false] at hb
      by_cases ha1 : (List.foldl processEntry analyzeInit z.entries).all_ascii <;>
        by_cases ha2 : (List.foldl processEntry analyzeInit z.entries).all_utf8 <;>
        simp [ha1, ha2] at hb
  · intro ha
    have : (z.entries.foldl processEntry analyzeInit).has_broken = true := by
      rw [h]; exact ha
    simp [this]

/-- C9: if `analyze` classifies an archive as `Utf8Only`, appending one more
entry whose CDH and LFH filename bytes are both valid UTF-8 never yields an
archive classified `Other`. -/
theorem analyze_utf8only_monotone (z : ZipFile) (e : ZipFileEntry)
    (a b : Prevalence) (h : CompatibilityLevel.analyze z = .Utf8Only a b)
    (hc : validUtf8 e.cdh.filename = true) (hl : validUtf8 e.lfh.filename = true) :
    ∀ p, CompatibilityLevel.analyze { z with entries := z.entries ++ [e] } ≠ .Other p := by
  intro p hcontra
  obtain ⟨hnb, hu⟩ := analyze_utf8only_state z a b h
  have hfold : ({ z with entries := z.entries ++ [e] } : ZipFile).entries.foldl
      processEntry analyzeInit
      = processEntry (z.entries.foldl processEntry analyzeInit) e := by
    simp [List.foldl_append]
  unfold CompatibilityLevel.analyze at hcontra
  simp only [hfold] at hcontra
  rcases processEntry_all_utf8 (z.entries.foldl processEntry analyzeInit) e hc hl with
    hb | hsame
  · simp [hb] at hcontra
  · by_cases hb' : (processEntry (z.entries.foldl processEntry analyzeInit) e).has_broken
    · simp [hb'] at hcontra
    · have hall : (processEntry (z.entries.foldl processEntry analyzeInit) e).all_utf8 = true :=
        hsame.trans hu
      simp only [hb', if_false, Bool.false_eq_true] at hcontra
      split at hcontra
      · simp at hcontra
      · simp [hall] at hcontra

/-- C9 (witness): concrete instantiation of the monotonicity theorem. -/
theorem analyze_utf8only_monotone_witness :
    CompatibilityLevel.analyze zipC9base = .Utf8Only .Always .None ∧
    validUtf8 entryC9.cdh.filename = true ∧
    CompatibilityLevel.analyze zipC9ext ≠ .Other Prevalence.None :=
  ⟨by decide, by decide,
    analyze_utf8only_monotone zipC9base entryC9 .Always .None (by decide)
      (by decide) (by decide) Prevalence.None⟩

lemma getD_drop (l : List Nat) (n i : Nat) :
    (l.drop n).getD i 0 = l.getD (n + i) 0 := by
  simp [List.getD_eq_getElem?_getD, List.getElem?_drop]

lemma u32le_drop (l : List Nat) (n i : Nat) :
    u32le (l.drop n) i = u32le l (n + i) := by
  simp [u32le, getD_drop, Nat.add_assoc]

lemma scanBackSig_some (data : List Nat) (sig : Nat) :
    ∀ i j, scanBackSig data sig i = some j →
      j ≤ i ∧ u32le data j = sig ∧ ∀ k, j < k → k ≤ i → u32le data k ≠ sig := by
  intro i
  induction i with
  | zero =>
    intro j h
    unfold scanBackSig at h
    split at h
    · rename_i hs
      obtain rfl : (0 : Nat) = j := by simpa using h
      exact ⟨Nat.le_refl 0, hs, fun k hk1 hk2 => absurd (Nat.lt_of_lt_of_le hk1 hk2)
        (Nat.lt_irrefl 0)⟩
    · simp at h
  | succ i ih =>
    intro j h
    unfold scanBackSig at h
    split at h
    · rename_i hs
      obtain rfl : i + 1 = j := by simpa using h
      exact ⟨Nat.le_refl _, hs, fun k hk1 hk2 => absurd hk2 (Nat.not_le_of_lt hk1)⟩
    · rename_i hs
      obtain ⟨h1, h2, h3⟩ := ih j h
      refine ⟨Nat.le_succ_of_le h1, h2, fun k hk1 hk2 => ?_⟩
      rcases Nat.lt_or_ge k (i + 1) with hk | hk
      · exact h3 k hk1 (Nat.lt_succ_iff.mp hk)
      · have : k = i + 1 := Nat.le_antisymm hk2 hk
        subst this
        exact hs
  
lemma eocd_parse_ok (d : List Nat) (e : EndOfCentralDirectory)
    (h : EndOfCentralDirectory.parse d = .ok e) :
    u32le d 0 = 0x06054b50 ∧ e.comment_length = u16le d 20 ∧
      22 + e.comment_length ≤ d.length ∧ e.comment.length = e.comment_length := by
  unfold EndOfCentralDirectory.parse at h
  split at h
  · simp at h
  · split at h
    · simp at h
    · split at h
      · simp at h
      · rename_i h1 h2 h3
        obtain rfl : _ = e := by simpa using h
        refine ⟨by simpa using h2, rfl, ?_, ?_⟩
        · show 22 + u16le d 20 ≤ d.length
          omega
        · show (List.take (u16le d 20) (List.drop 22 d)).length = u16le d 20
          simp only [List.length_take, List.length_drop]
          omega

/-- C3 (counterexample): on a file whose very last EOCD-signature occurrence
declares a comment length that overruns the file, the parser fails outright
even though an earlier occurrence (at offset 0) satisfies the validity
condition — the claim says the parser would select that earlier occurrence. -/
theorem eocd_last_occurrence_counterexample :
    (locateAndParseEocd fileC3).isOk = false ∧
    u32le fileC3 0 = 0x06054b50 ∧
    (EndOfCentralDirectory.parse fileC3).isOk = true ∧
    0 + 22 + u16le fileC3 20 ≤ fileC3.length ∧
    u32le fileC3 22 = 0x06054b50 ∧
    fileC3.length < 22 + 22 + u16le fileC3 42 := by
  refine ⟨by decide, by decide, by decide, by decide, by decide, by decide⟩

/-- C3 (amended): whenever EOCD location succeeds, the chosen record sits at
the *last* signature occurrence in the search window (there is no later
position, fitting a 22-byte record, holding the signature), its declared
comment length fits in the file, and the stored comment matches the declared
length.  When the last occurrence's comment overruns, the parse fails; no
earlier occurrence is ever selected. -/
theorem eocd_location (file : List Nat) (off : Nat) (eocd : EndOfCentralDirectory)
    (h : locateAndParseEocd file = .ok (off, eocd)) :
    u32le file off = 0x06054b50 ∧
    off + 22 + eocd.comment_length ≤ file.length ∧
    eocd.comment.length = eocd.comment_length ∧
    (∀ q, off < q → q + 22 ≤ file.length → u32le file q ≠ 0x06054b50) := by
  simp only [locateAndParseEocd] at h
  split at h
  · simp at h
  · rename_i i hfind
    split at h
    · rename_i eocd0 hparse
      obtain ⟨rfl, rfl⟩ : file.length - min 65557 file.length + i = off ∧ eocd0 = eocd := by
        simpa using h
      unfold findEocdOffsetInBuffer at hfind
      split at hfind
      · simp at hfind
      · rename_i hlen
        obtain ⟨hi, hsig, hlast⟩ := scanBackSig_some _ _ _ _ hfind
        rw [List.drop_drop] at hparse
        obtain ⟨hpsig, hpcl, hpbound, hpcomment⟩ := eocd_parse_ok _ _ hparse
        have hdlen : (file.drop (file.length - min 65557 file.length)).length
            = min 65557 file.length := by
          simp [List.length_drop]
          omega
        rw [hdlen] at hlen hi
        have hslen : (file.drop (file.length - min 65557 file.length + i)).length
            = file.length - (file.length - min 65557 file.length + i) := by
          simp [List.length_drop]
        rw [hslen] at hpbound
        refine ⟨?_, ?_, hpcomment, ?_⟩
        · have := u32le_drop file (file.length - min 65557 file.length) i
          rw [this] at hsig
          exact hsig
        · omega
        · intro q hq1 hq2 hqsig
          have hqso : file.length - min 65557 file.length ≤ q := by omega
          set so := file.length - min 65557 file.length with hso
          have hk : q = so + (q - so) := by omega
          have : u32le (file.drop so) (q - so) = 0x06054b50 := by
            rw [u32le_drop, ← hk]
            exact hqsig
          refine hlast (q - so) (by omega) (by omega) this
    · simp at h

/-- C3 (witness): the amended EOCD-location theorem applied to a concrete
single-EOCD file with a 2-byte comment. -/
theorem eocd_location_witness :
    locateAndParseEocd fileC3w = .ok (0, eocdC3w) ∧
    u32le fileC3w 0 = 0x06054b50 ∧
    0 + 22 + eocdC3w.comment_length ≤ fileC3w.length ∧
    eocdC3w.comment.length = eocdC3w.comment_length :=
  ⟨by decide, (eocd_location fileC3w 0 eocdC3w (by decide)).1,
   (eocd_location fileC3w 0 eocdC3w (by decide)).2.1,
   (eocd_location fileC3w 0 eocdC3w (by decide)).2.2.1⟩

/-- C4: `LocalFileHeader::parse` computes `file_data_offset` as
`local_header_offset + 30 + filename_length + extra_field_length` (here
`100 + 31 = 131`) but sets `file_data_size` from the *LFH's own* 32-bit
compressed-size field (here `0`), not from the CDH's compressed size (here
`5`), contradicting the claim and the spec's "CDH is authoritative" rule. -/
theorem lfh_file_data_size_bug :
    ParseMod.LocalFileHeader.parse lfhC4bytes cdhC4.local_header_offset =
      .ok ⟨0x04034b50, 20, ⟨8⟩, 0, 0, 0, 0, 0, 0, 1, 0, [97], [], 131, 0⟩ ∧
    cdhC4.compressed_size = 5 ∧
    u32le lfhC4bytes 18 = 0 := by
  refine ⟨by decide, by decide, by decide⟩

/-- C8 (counterexample): a 20-byte window whose bytes at offset 16 hold a
next-section signature but whose leading 4 bytes are not 0x08074b50 makes
`parse_standard` fail, although the claim says an error occurs exactly when
neither position matches. -/
theorem data_descriptor_counterexample :
    (DataDescriptor.parse_standard ddC8).isOk = false ∧
    isNextSectionSignature (u32le ddC8 16) = true := by
  refine ⟨by decide, by decide⟩

/-- C8 (amended): layout selection is ZIP64 iff a 0x0001 extra is present on
either header; the with-signature layout is chosen iff the bytes at offset
16 (standard) / 24 (ZIP64) match a next-section signature, in which case the
leading 4 bytes must additionally equal 0x08074b50 or parsing errors; the
no-signature layout is chosen iff that check fails and offset 12 / 20
matches; parsing errors when neither position matches. -/
theorem data_descriptor_disambiguation (lfh : LocalFileHeader)
    (cdh : CentralDirectoryHeader) (data : List Nat) :
    ((lfh.extra_fields.any (fun ef => ef.tag == 0x0001) ||
        cdh.extra_fields.any (fun ef => ef.tag == 0x0001)) = false →
      resolveDescriptor lfh cdh data = DataDescriptor.parse_standard data) ∧
    ((lfh.extra_fields.any (fun ef => ef.tag == 0x0001) ||
        cdh.extra_fields.any (fun ef => ef.tag == 0x0001)) = true →
      resolveDescriptor lfh cdh data = DataDescriptor.parse_zip64 data) ∧
    (20 ≤ data.length →
      (isNextSectionSignature (u32le data 16) = true →
        (u32le data 0 = 0x08074b50 →
          DataDescriptor.parse_standard data =
            .ok (.Standard (some (u32le data 0)) (u32le data 4) (u32le data 8)
              (u32le data 12))) ∧
        (u32le data 0 ≠ 0x08074b50 →
          DataDescriptor.parse_standard data =
            .error "Invalid Data Descriptor signature")) ∧
      (isNextSectionSignature (u32le data 16) = false →
        isNextSectionSignature (u32le data 12) = true →
        DataDescriptor.parse_standard data =
          .ok (.Standard none (u32le data 0) (u32le data 4) (u32le data 8))) ∧
      (isNextSectionSignature (u32le data 16) = false →
        isNextSectionSignature (u32le data 12) = false →
        DataDescriptor.parse_standard data =
          .error "Unknown data after Data Descriptor")) ∧
    (28 ≤ data.length →
      (isNextSectionSignature (u32le data 24) = true →
        (u32le data 0 = 0x08074b50 →
          DataDescriptor.parse_zip64 data =
            .ok (.Zip64 (some (u32le data 0)) (u32le data 4) (u64le data 8)
              (u64le data 16))) ∧
        (u32le data 0 ≠ 0x08074b50 →
          DataDescriptor.parse_zip64 data =
            .error "Invalid Zip64 Data Descriptor signature")) ∧
      (isNextSectionSignature (u32le data 24) = false →
        isNextSectionSignature (u32le data 20) = true →
        DataDescriptor.parse_zip64 data =
          .ok (.Zip64 none (u32le data 0) (u64le data 4) (u64le data 12))) ∧
      (isNextSectionSignature (u32le data 24) = false →
        isNextSectionSignature (u32le data 20) = false →
        DataDescriptor.parse_zip64 data =
          .error "Unknown data after Zip64 Data Descriptor")) := by
  refine ⟨?_, ?_, ?_, ?_⟩
  · intro hz
    unfold resolveDescriptor usesZip64Descriptor
    rw [hz]
    simp
  · intro hz
    unfold resolveDescriptor usesZip64Descriptor
    rw [hz]
    simp
  · intro hlen
    refine ⟨fun h16 => ⟨fun hsig => ?_, fun hsig => ?_⟩,
      fun h16 h12 => ?_, fun h16 h12 => ?_⟩ <;>
      · unfold DataDescriptor.parse_standard
        rw [if_neg (by omega)]
        simp [h16, *]
  · intro hlen
    refine ⟨fun h24 => ⟨fun hsig => ?_, fun hsig => ?_⟩,
      fun h24 h20 => ?_, fun h24 h20 => ?_⟩ <;>
      · unfold DataDescriptor.parse_zip64
        rw [if_neg (by omega)]
        simp [h24, *]

/-- C8 (witness): concrete instantiation on a signed standard descriptor
window followed by an LFH signature, with headers carrying no 0x0001 extra. -/
theorem data_descriptor_disambiguation_witness :
    DataDescriptor.parse_standard ddC8ok =
      .ok (.Standard (some (u32le ddC8ok 0)) (u32le ddC8ok 4) (u32le ddC8ok 8)
        (u32le ddC8ok 12)) ∧
    resolveDescriptor (mkLfh [97] 0 none) (mkCdh [97] 0 none) ddC8ok =
      DataDescriptor.parse_standard ddC8ok :=
  ⟨(((data_descriptor_disambiguation (mkLfh [97] 0 none) (mkCdh [97] 0 none)
      ddC8ok).2.2.1 (by decide)).1 (by decide)).1 (by decide),
   (data_descriptor_disambiguation (mkLfh [97] 0 none) (mkCdh [97] 0 none)
      ddC8ok).1 (by decide)⟩

/-- C2: with `needs_original_bytes = false`, an entry whose selected source
bytes ([0x80]) fail to decode gets `decoded = none` and `original_bytes =
none` from the inspector, so the rebuilt filename is *empty*
(`unwrap_or_default`), not the original selected source bytes as the claim
and spec require. -/
theorem rebuild_filename_fallback_bug :
    (InspectedArchive.inspect libTriv zipC2 configC2).map
      (fun a => a.entries.map (fun en => (en.filename.decoded.isNone,
        en.filename.original_bytes, chooseFilename en.filename)))
      = .ok [(true, none, [])] ∧
    zipC2.entries.map (fun e => e.cdh.filename) = [[128]] ∧
    (rebuild libTriv zipC2 configC2 []).map (fun r => r.1.head?)
      = .ok (some (RebuildChunk.Binary
          (LocalFileHeader.to_bytes (buildLfh (mkEntry [128] 0 none) [])))) := by
  refine ⟨by decide, by decide, by decide⟩

/-- C6: a single non-Shift_JIS (UTF-8) filename containing both U+301C and
U+FF5E sets only `contains_other_wave_dash`; `contains_other_fullwidth_tilde`
stays false because of the `else if` chain, contradicting the claim (and the
field's own doc comment). -/
theorem wave_dash_flags_bug :
    (InspectedArchive.inspect libC6 zipC6 configC6).map
      (fun a => (a.contains_sjis_wave_dash, a.contains_other_wave_dash,
        a.contains_other_fullwidth_tilde)) = .ok (false, true, false) ∧
    (InspectedArchive.inspect libC6 zipC6 configC6).map
      (fun a => a.entries.map (fun en => en.filename.decoded.map
        (fun d => (d.encoding_used, strContainsChar d.string waveDashChar,
          strContainsChar d.string fullwidthTildeChar))))
      = .ok [some ("UTF-8", true, true)] := by
  refine ⟨by decide, by decide⟩

/-- C1 (counterexample): an entry whose effective compressed size is exactly
0xFFFFFFFF — a value that fits in 32 bits — still gets a 0x0001 extra in
both the rebuilt LFH and CDH, contradicting the claim's "no 0x0001 extra
when the sizes and offset all fit in 32 bits". -/
theorem buildLfh_sentinel_counterexample :
    effCompressedSize entryC1 < 4294967296 ∧
    effUncompressedSize entryC1 < 4294967296 ∧
    (buildLfh entryC1 [97]).extra_fields.any (fun ef => ef.tag == 0x0001) = true ∧
    (buildCdh entryC1 [97] 0).extra_fields.any (fun ef => ef.tag == 0x0001) = true := by
  refine ⟨by decide, by decide, by decide, by decide⟩

lemma le64_length (n : Nat) : (le64 n).length = 8 := by
  simp [le64, le32]

lemma buildLfh_extra_fields_pos (e : ZipFileEntry) (fn : List Nat)
    (h : 0xFFFFFFFF ≤ effCompressedSize e ∨ 0xFFFFFFFF ≤ effUncompressedSize e) :
    (buildLfh e fn).extra_fields =
      ⟨0x0001, 16, le64 (effUncompressedSize e) ++ le64 (effCompressedSize e)⟩ ::
        e.lfh.extra_fields.filter
          (fun ef => !(ef.tag == 0x0001) && !(ef.tag == 0x7075)) := by
  simp [buildLfh, h, Zip64ExtendedInfo.TAG, UnicodePathExtraField.TAG, le64_length]

lemma buildLfh_extra_fields_neg (e : ZipFileEntry) (fn : List Nat)
    (h : ¬(0xFFFFFFFF ≤ effCompressedSize e ∨ 0xFFFFFFFF ≤ effUncompressedSize e)) :
    (buildLfh e fn).extra_fields =
      e.lfh.extra_fields.filter
        (fun ef => !(ef.tag == 0x0001) && !(ef.tag == 0x7075)) := by
  simp [buildLfh, h, Zip64ExtendedInfo.TAG, UnicodePathExtraField.TAG]

lemma buildCdh_extra_fields_pos (e : ZipFileEntry) (fn : List Nat) (off : Nat)
    (h : 0xFFFFFFFF ≤ effCompressedSize e ∨ 0xFFFFFFFF ≤ effUncompressedSize e ∨
      0xFFFFFFFF ≤ off) :
    (buildCdh e fn off).extra_fields =
      ⟨0x0001, (zip64CdhData e off).length % 65536, zip64CdhData e off⟩ ::
        e.cdh.extra_fields.filter
          (fun ef => !(ef.tag == 0x0001) && !(ef.tag == 0x7075)) := by
  simp [buildCdh, h, Zip64ExtendedInfo.TAG, UnicodePathExtraField.TAG]

lemma buildCdh_extra_fields_neg (e : ZipFileEntry) (fn : List Nat) (off : Nat)
    (h : ¬(0xFFFFFFFF ≤ effCompressedSize e ∨ 0xFFFFFFFF ≤ effUncompressedSize e ∨
      0xFFFFFFFF ≤ off)) :
    (buildCdh e fn off).extra_fields =
      e.cdh.extra_fields.filter
        (fun ef => !(ef.tag == 0x0001) && !(ef.tag == 0x7075)) := by
  simp [buildCdh, h, Zip64ExtendedInfo.TAG, UnicodePathExtraField.TAG]

lemma mem_filter_tag_ne (l : List ExtraField) (ef : ExtraField)
    (h : ef ∈ l.filter (fun ef => !(ef.tag == 0x0001) && !(ef.tag == 0x7075))) :
    ef.tag ≠ 0x0001 := by
  have := List.mem_filter.mp h
  simp only [Bool.and_eq_true, Bool.not_eq_eq_eq_not, Bool.not_true, beq_eq_false_iff_ne,
    ne_eq] at this
  exact this.2.1

/-- C1 (amended): for every retained entry, no 0x0001 extra appears in the
rebuilt LFH or CDH when the effective compressed size, uncompressed size and
new local-header offset are all *strictly below* 0xFFFFFFFF; when the
compressed or uncompressed size is *at least* 0xFFFFFFFF, the rebuilt LFH
carries exactly one 0x0001 extra whose 16 data bytes are the uncompressed
then the compressed size, with both 32-bit size fields set to the sentinel,
and the rebuilt CDH carries exactly one 0x0001 extra containing exactly
those of the three fields that are individually >= the sentinel, in the
fixed order uncompressed, compressed, local-header offset. -/
theorem rebuild_zip64_promotion (e : ZipFileEntry) (fn : List Nat) (off : Nat) :
    (effCompressedSize e < 0xFFFFFFFF → effUncompressedSize e < 0xFFFFFFFF →
      off < 0xFFFFFFFF →
      (∀ ef ∈ (buildLfh e fn).extra_fields, ef.tag ≠ 0x0001) ∧
      (∀ ef ∈ (buildCdh e fn off).extra_fields, ef.tag ≠ 0x0001)) ∧
    (0xFFFFFFFF ≤ effCompressedSize e ∨ 0xFFFFFFFF ≤ effUncompressedSize e →
      ((buildLfh e fn).extra_fields.head? =
          some ⟨0x0001, 16, le64 (effUncompressedSize e) ++ le64 (effCompressedSize e)⟩ ∧
        (buildLfh e fn).compressed_size = 0xFFFFFFFF ∧
        (buildLfh e fn).uncompressed_size = 0xFFFFFFFF ∧
        (∀ ef ∈ (buildLfh e fn).extra_fields.tail, ef.tag ≠ 0x0001)) ∧
      ((buildCdh e fn off).extra_fields.head? =
          some ⟨0x0001, (zip64CdhData e off).length % 65536, zip64CdhData e off⟩ ∧
        (∀ ef ∈ (buildCdh e fn off).extra_fields.tail, ef.tag ≠ 0x0001))) := by
  constructor
  · intro h1 h2 h3
    constructor
    · intro ef hef
      rw [buildLfh_extra_fields_neg e fn (by omega)] at hef
      exact mem_filter_tag_ne _ _ hef
    · intro ef hef
      rw [buildCdh_extra_fields_neg e fn off (by omega)] at hef
      exact mem_filter_tag_ne _ _ hef
  · intro h
    have hc : 0xFFFFFFFF ≤ effCompressedSize e ∨ 0xFFFFFFFF ≤ effUncompressedSize e ∨
        0xFFFFFFFF ≤ off := by tauto
    refine ⟨⟨?_, ?_, ?_, ?_⟩, ?_, ?_⟩
    · rw [buildLfh_extra_fields_pos e fn h]
      rfl
    · simp [buildLfh, h]
    · simp [buildLfh, h]
    · intro ef hef
      rw [buildLfh_extra_fields_pos e fn h] at hef
      exact mem_filter_tag_ne _ _ hef
    · rw [buildCdh_extra_fields_pos e fn off hc]
      rfl
    · intro ef hef
      rw [buildCdh_extra_fields_pos e fn off hc] at hef
      exact mem_filter_tag_ne _ _ hef

/-- C1 (witness): the amended promotion theorem applied to an entry with
ZIP64 sizes of 2^32, at local-header offset 0. -/
theorem rebuild_zip64_promotion_witness :
    0xFFFFFFFF ≤ effCompressedSize entryC1w ∧
    (buildLfh entryC1w [97]).extra_fields.head? =
      some ⟨0x0001, 16, le64 4294967296 ++ le64 4294967296⟩ ∧
    (buildLfh entryC1w [97]).compressed_size = 0xFFFFFFFF ∧
    (buildCdh entryC1w [97] 0).extra_fields.head? =
      some ⟨0x0001, (zip64CdhData entryC1w 0).length % 65536, zip64CdhData entryC1w 0⟩ :=
  ⟨by decide,
   ((rebuild_zip64_promotion entryC1w [97] 0).2 (by decide)).1.1,
   ((rebuild_zip64_promotion entryC1w [97] 0).2 (by decide)).1.2.1,
   ((rebuild_zip64_promotion entryC1w [97] 0).2 (by decide)).2.1⟩

lemma pickField_sound (cfg : InspectConfig) (e : ZipFileEntry) :
    ∀ fields r, pickField cfg e fields = some r →
      fields.find? (acceptsSpec cfg e) = some r.kind ∧
      r.original_bytes = sourceBytes e r.kind ∧
      r.utf8_flag = sourceFlag e r.kind := by
  intro fields
  induction fields with
  | nil =>
    intro r h
    simp [pickField] at h
  | cons k rest ih =>
    intro r h
    cases k with
    | CdhFilename =>
      simp only [pickField] at h
      obtain rfl : _ = r := by simpa using h
      simp [List.find?, acceptsSpec, sourceBytes, sourceFlag]
    | LfhFilename =>
      simp only [pickField] at h
      obtain rfl : _ = r := by simpa using h
      simp [List.find?, acceptsSpec, sourceBytes, sourceFlag]
    | CdhUnicodePathExtraField =>
      simp only [pickField] at h
      cases hup : e.cdh.unicode_path with
      | some up =>
        rw [hup] at h
        by_cases hacc : (cfg.ignore_crc32_mismatch || up.crc32_matched) = true
        · obtain rfl : _ = r := by simpa [hacc] using h
          simp [List.find?, acceptsSpec, sourceBytes, sourceFlag, hup, hacc]
        · have h2 : pickField cfg e rest = some r := by simpa [hacc] using h
          obtain ⟨h1, h2, h3⟩ := ih r h2
          refine ⟨?_, h2, h3⟩
          simp [List.find?, acceptsSpec, hup, hacc, h1]
      | none =>
        rw [hup] at h
        obtain ⟨h1, h2, h3⟩ := ih r h
        refine ⟨?_, h2, h3⟩
        simp [List.find?, acceptsSpec, hup, h1]
    | LfhUnicodePathExtraField =>
      simp only [pickField] at h
      cases hup : e.lfh.unicode_path with
      | some up =>
        rw [hup] at h
        by_cases hacc : (cfg.ignore_crc32_mismatch || up.crc32_matched) = true
        · obtain rfl : _ = r := by simpa [hacc] using h
          simp [List.find?, acceptsSpec, sourceBytes, sourceFlag, hup, hacc]
        · have h2 : pickField cfg e rest = some r := by simpa [hacc] using h
          obtain ⟨h1, h2, h3⟩ := ih r h2
          refine ⟨?_, h2, h3⟩
          simp [List.find?, acceptsSpec, hup, hacc, h1]
      | none =>
        rw [hup] at h
        obtain ⟨h1, h2, h3⟩ := ih r h
        refine ⟨?_, h2, h3⟩
        simp [List.find?, acceptsSpec, hup, h1]

lemma pickField_total (cfg : InspectConfig) (e : ZipFileEntry) :
    ∀ fields, (fields.contains InspectedFilenameFieldKind.CdhFilename ||
        fields.contains InspectedFilenameFieldKind.LfhFilename) = true →
      (pickField cfg e fields).isSome = true := by
  intro fields
  induction fields with
  | nil => intro h; simp at h
  | cons k rest ih =>
    intro h
    cases k with
    | CdhFilename => simp [pickField]
    | LfhFilename => simp [pickField]
    | CdhUnicodePathExtraField =>
      have hrest : (rest.contains InspectedFilenameFieldKind.CdhFilename ||
          rest.contains InspectedFilenameFieldKind.LfhFilename) = true := by
        simpa [List.contains_cons] using h
      simp only [pickField]
      cases hup : e.cdh.unicode_path with
      | some up =>
        by_cases hacc : (cfg.ignore_crc32_mismatch || up.crc32_matched) = true
        · simp [hacc]
        · simp [hacc, ih hrest]
      | none => exact ih hrest
    | LfhUnicodePathExtraField =>
      have hrest : (rest.contains InspectedFilenameFieldKind.CdhFilename ||
          rest.contains InspectedFilenameFieldKind.LfhFilename) = true := by
        simpa [List.contains_cons] using h
      simp only [pickField]
      cases hup : e.lfh.unicode_path with
      | some up =>
        by_cases hacc : (cfg.ignore_crc32_mismatch || up.crc32_matched) = true
        · simp [hacc]
        · simp [hacc, ih hrest]
      | none => exact ih hrest

/-- C7: for every entry and every field-selection strategy, the selection
loop returns exactly the first kind of the strategy's preference list whose
acceptance predicate passes (Unicode-path extras pass iff present and
`crc32_matched || ignore_crc32_mismatch`; plain filename fields always
pass), with the source's bytes, and with `utf8_flag` reported true for
Unicode-path extras regardless of the host header's flag bits. -/
theorem field_selection_first_match (cfg : InspectConfig) (e : ZipFileEntry) :
    ∃ r, pickField cfg e (fieldsFor cfg.field_selection_strategy) = some r ∧
      selectedField cfg e = r ∧
      (fieldsFor cfg.field_selection_strategy).find? (acceptsSpec cfg e) = some r.kind ∧
      r.original_bytes = sourceBytes e r.kind ∧
      r.utf8_flag = sourceFlag e r.kind := by
  have hsome : (pickField cfg e (fieldsFor cfg.field_selection_strategy)).isSome = true := by
    cases hs : cfg.field_selection_strategy <;>
      exact pickField_total cfg e _ (by decide)
  obtain ⟨r, hr⟩ := Option.isSome_iff_exists.mp hsome
  obtain ⟨h1, h2, h3⟩ := pickField_sound cfg e _ r hr
  exact ⟨r, hr, by simp [selectedField, hr], h1, h2, h3⟩

lemma sumChunks_append (l l' : List RebuildChunk) :
    sumChunks (l ++ l') = sumChunks l + sumChunks l' := by
  simp [sumChunks]

lemma foldl_preserve {α β : Type} (f : β → α → β) (P : β → Prop)
    (hf : ∀ b a, P b → P (f b a)) :
    ∀ (l : List α) (b : β), P b → P (l.foldl f b) := by
  intro l
  induction l with
  | nil => intro b hb; simpa using hb
  | cons a l ih => intro b hb; exact ih _ (hf b a hb)

lemma rebuildPass1_sum (omits : List Nat)
    (pairs : List (Nat × (ZipFileEntry × InspectedEntry))) :
    (rebuildPass1 omits pairs).2.1 = sumChunks (rebuildPass1 omits pairs).1 := by
  unfold rebuildPass1
  refine foldl_preserve (pass1Step omits) (fun acc => acc.2.1 = sumChunks acc.1) ?_
    pairs ([], 0, []) (by simp [sumChunks])
  intro acc ie hacc
  unfold pass1Step
  by_cases ho : omits.contains ie.1 = true
  · rw [if_pos ho]
    exact hacc
  · rw [if_neg ho]
    dsimp only
    rw [sumChunks_append, ← hacc]
    simp [sumChunks, chunkSize]
    omega

lemma rebuildPass2_sum (start : List RebuildChunk × Nat) (cds : List CdInfo)
    (h : start.2 = sumChunks start.1) :
    (rebuildPass2 start cds).2 = sumChunks (rebuildPass2 start cds).1 := by
  unfold rebuildPass2
  refine foldl_preserve pass2Step (fun acc => acc.2 = sumChunks acc.1) ?_ cds start h
  intro acc info hacc
  unfold pass2Step
  dsimp only
  rw [sumChunks_append, ← hacc]
  simp [sumChunks, chunkSize]

lemma locator_to_bytes_length (l : Zip64EndOfCentralDirectoryLocator) :
    (Zip64EndOfCentralDirectoryLocator.to_bytes l).length = 20 := by
  simp [Zip64EndOfCentralDirectoryLocator.to_bytes, le32, le64]

lemma rebuildTail_sum (zip : ZipFile) (chunks2 : List RebuildChunk)
    (cs ce te : Nat) (h : ce = sumChunks chunks2) :
    (rebuildTail zip chunks2 cs ce te).2 =
      sumChunks (rebuildTail zip chunks2 cs ce te).1 := by
  unfold rebuildTail
  by_cases hz : decide (0xFFFFFFFF ≤ cs ∨ 0xFFFFFFFF ≤ ce - cs ∨ 0xFFFF ≤ te) = true
  · simp only [hz, if_true]
    rw [sumChunks_append, sumChunks_append, ← h]
    simp [sumChunks, chunkSize, locator_to_bytes_length]
    omega
  · simp only [hz, if_false, Bool.false_eq_true]
    rw [sumChunks_append, ← h]
    simp [sumChunks, chunkSize]

/-- C10: whenever `rebuild` returns `Ok((chunks, total_size))`, the total
equals the sum over the chunks of each chunk's size (byte-vector length for
Binary, the size field for Reference). -/
theorem rebuild_total_size (lib : EncodingLib) (zip : ZipFile)
    (config : InspectConfig) (omits : List Nat) (chunks : List RebuildChunk)
    (total : Nat) (h : rebuild lib zip config omits = .ok (chunks, total)) :
    total = sumChunks chunks := by
  unfold rebuild at h
  split at h
  · simp at h
  · rename_i inspected hins
    have hx : rebuildTail zip
        (rebuildPass2
          ((rebuildPass1 omits ((zip.entries.zip inspected.entries).enum)).1,
            (rebuildPass1 omits ((zip.entries.zip inspected.entries).enum)).2.1)
          (rebuildPass1 omits ((zip.entries.zip inspected.entries).enum)).2.2).1
        (rebuildPass1 omits ((zip.entries.zip inspected.entries).enum)).2.1
        (rebuildPass2
          ((rebuildPass1 omits ((zip.entries.zip inspected.entries).enum)).1,
            (rebuildPass1 omits ((zip.entries.zip inspected.entries).enum)).2.1)
          (rebuildPass1 omits ((zip.entries.zip inspected.entries).enum)).2.2).2
        (rebuildPass1 omits ((zip.entries.zip inspected.entries).enum)).2.2.length
        = (chunks, total) := by
      simpa using h
    have hsum := rebuildTail_sum zip
      (rebuildPass2
        ((rebuildPass1 omits ((zip.entries.zip inspected.entries).enum)).1,
          (rebuildPass1 omits ((zip.entries.zip inspected.entries).enum)).2.1)
        (rebuildPass1 omits ((zip.entries.zip inspected.entries).enum)).2.2).1
      (rebuildPass1 omits ((zip.entries.zip inspected.entries).enum)).2.1
      (rebuildPass2
        ((rebuildPass1 omits ((zip.entries.zip inspected.entries).enum)).1,
          (rebuildPass1 omits ((zip.entries.zip inspected.entries).enum)).2.1)
        (rebuildPass1 omits ((zip.entries.zip inspected.entries).enum)).2.2).2
      (rebuildPass1 omits ((zip.entries.zip inspected.entries).enum)).2.2.length
      (rebuildPass2_sum _ _ (rebuildPass1_sum omits _))
    rw [hx] at hsum
    exact hsum

/-- C10 (witness): rebuilding an empty archive yields the lone 22-byte EOCD
chunk and total 22. -/
theorem rebuild_total_size_witness :
    rebuild libTriv (mkZip []) configC2 [] = .ok (chunksC10, 22) ∧
    22 = sumChunks chunksC10 :=
  ⟨by decide,
   rebuild_total_size libTriv (mkZip []) configC2 [] chunksC10 22 (by decide)⟩
